import Mathlib

/-! Linear-time selection of src/linprog2d.c: SWAP macro, sorting networks
(`sort`), three-way `partition`, `kth_smallest` and `median`, modelled over
lists of exact rationals. -/

/-- The SWAP(x, y) macro of src/linprog2d.c: exchange positions i and j of
the array d. -/
def listSwap (d : List ℚ) (i j : ℕ) : List ℚ :=
  (d.set i (d.getD j 0)).set j (d.getD i 0)

/-- The SWAP_IF_GT(x, y) macro: swap positions i and j if d[j] < d[i]. -/
def compSwap (d : List ℚ) (i j : ℕ) : List ℚ :=
  if d.getD j 0 < d.getD i 0 then listSwap d i j else d

/-- The 2/3/4/5-element sorting networks of `sort` in src/linprog2d.c,
with the compare-exchanges in source order. -/
def sort (d : List ℚ) : List ℚ :=
  if d.length = 2 then compSwap d 0 1
  else if d.length = 3 then compSwap (compSwap (compSwap d 1 2) 0 2) 0 1
  else if d.length = 4 then
    compSwap (compSwap (compSwap (compSwap (compSwap d 0 1) 2 3) 0 2) 1 3) 1 2
  else if d.length = 5 then
    compSwap (compSwap (compSwap (compSwap (compSwap (compSwap (compSwap
      (compSwap (compSwap d 0 1) 3 4) 2 4) 2 3) 0 3) 0 2) 1 4) 1 3) 1 2
  else d

/-- The ascending reference ordering of a list, used to state what the
selection routines compute. -/
def isort (d : List ℚ) : List ℚ := d.insertionSort (· ≤ ·)

/-- One iteration step of the `partition` loop in src/linprog2d.c, with an
explicit fuel argument bounding the number of iterations (the C loop
terminates after at most `len` iterations whenever the pivot occurs in the
list; the fuel is immaterial on those runs). -/
def partitionGo (piviot : ℚ) : ℕ → List ℚ → ℕ → ℕ → ℕ → List ℚ × ℕ
  | 0, d, _, l, _ => (d, l)
  | fuel + 1, d, i, l, r =>
    if i ≤ r then
      if d.getD i 0 < piviot then
        partitionGo piviot fuel (listSwap d l i) (i + 1) (l + 1) r
      else if piviot < d.getD i 0 then
        partitionGo piviot fuel (listSwap d r i) i l (r - 1)
      else
        partitionGo piviot fuel d (i + 1) l r
    else (d, l)

/-- partition of src/linprog2d.c: three-way partition of d around the
piviot; returns the permuted array together with the count of elements
strictly smaller than the piviot (the C function mutates d in place and
returns the count). -/
def partition (d : List ℚ) (piviot : ℚ) : List ℚ × ℕ :=
  partitionGo piviot (d.length + 1) d 0 0 (d.length - 1)

/-- Loop invariant of the `partition` loop: positions below l hold values
smaller than the piviot, positions in [l, i) hold the piviot, positions
above r hold larger values, and the piviot occurs somewhere in [l, r]. -/
structure PartInv (piviot : ℚ) (d0 d : List ℚ) (i l r : ℕ) : Prop where
  len : d.length = d0.length
  perm : d.Perm d0
  li : l ≤ i
  ir : i ≤ r + 1
  rlen : r < d.length
  lt_sec : ∀ j, j < l → d.getD j 0 < piviot
  eq_sec : ∀ j, l ≤ j → j < i → d.getD j 0 = piviot
  gt_sec : ∀ j, r < j → j < d.length → piviot < d.getD j 0
  mem_sec : ∃ j, l ≤ j ∧ j ≤ r ∧ d.getD j 0 = piviot

/-- Postcondition of `partition`: the array is a permutation of the input,
split as  [< piviot | = piviot (nonempty) | > piviot]  with l the size of
the first block. -/
structure PartPost (piviot : ℚ) (d0 d : List ℚ) (l : ℕ) : Prop where
  len : d.length = d0.length
  perm : d.Perm d0
  lt_sec : ∀ j, j < l → d.getD j 0 < piviot
  ex_r : ∃ r, l ≤ r ∧ r < d.length ∧
    (∀ j, l ≤ j → j ≤ r → d.getD j 0 = piviot) ∧
    (∀ j, r < j → j < d.length → piviot < d.getD j 0)

/-- The medians of the successive complete groups of five elements of d,
as collected at the front of the array by the median-of-medians pass of
`kth_smallest` in src/linprog2d.c (the trailing fewer-than-5 elements are
ignored, as in the C code). -/
def medians5 : List ℚ → List ℚ
  | a :: b :: c :: d :: e :: rest => (sort [a, b, c, d, e]).getD 2 0 :: medians5 rest
  | _ => []

/-- kth_smallest of src/linprog2d.c: median-of-medians selection. The
explicit fuel argument bounds the recursion depth; `d.length` is always
sufficient (each recursive call operates on a strictly shorter list). -/
def kth_smallest_go : ℕ → List ℚ → ℕ → ℚ
  | 0, _, _ => 0
  | fuel + 1, d, k =>
    if d.length ≤ 5 then (sort d).getD k 0
    else
      let meds := medians5 d
      let piviot := kth_smallest_go fuel meds (meds.length / 2)
      let pr := partition d piviot
      if pr.2 = k then piviot
      else if pr.2 > k then kth_smallest_go fuel (pr.1.take pr.2) k
      else kth_smallest_go fuel (pr.1.drop (pr.2 + 1)) (k - pr.2 - 1)

/-- kth_smallest of src/linprog2d.c (wrapper fixing the fuel). -/
def kth_smallest (d : List ℚ) (k : ℕ) : ℚ := kth_smallest_go d.length d k

/-- median of src/linprog2d.c: the element at position len / 2 of the
sorted list. -/
def median (d : List ℚ) : ℚ := kth_smallest d (d.length / 2)

/-- MAX_EPS_ABS = 1e-30 of src/linprog2d.c (read as an exact rational). -/
def MAX_EPS_ABS : ℚ := 1 / 10 ^ 30

/-- MAX_EPS_REL = 1e-15 of src/linprog2d.c (read as an exact rational). -/
def MAX_EPS_REL : ℚ := 1 / 10 ^ 15

/-- fmax_ of src/linprog2d.c on finite values: (x > y) ? x : y. -/
def fmax_ (x y : ℚ) : ℚ := if x > y then x else y

/-- fmin_ of src/linprog2d.c on finite values: (x < y) ? x : y. -/
def fmin_ (x y : ℚ) : ℚ := if x < y then x else y

/-- feq_ of src/linprog2d.c on finite values. -/
def feq_ (x y : ℚ) : Prop :=
  |x - y| < MAX_EPS_ABS ∨ |x - y| < MAX_EPS_REL * fmax_ |x| |y|

instance : ∀ x y : ℚ, Decidable (feq_ x y) := fun x y =>
  inferInstanceAs (Decidable (_ ∨ _))

/-- A double that is either -HUGE_VAL, finite, or +HUGE_VAL. -/
inductive XVal where
  | ninf : XVal
  | fin : ℚ → XVal
  | pinf : XVal
deriving DecidableEq

/-- The < comparison of C doubles extended to ±HUGE_VAL. -/
def XVal.lt : XVal → XVal → Prop
  | .ninf, .ninf => False
  | .ninf, .fin _ => True
  | .ninf, .pinf => True
  | .fin _, .ninf => False
  | .fin a, .fin b => a < b
  | .fin _, .pinf => True
  | .pinf, _ => False

instance : ∀ x y : XVal, Decidable (XVal.lt x y)
  | .ninf, .ninf => .isFalse id
  | .ninf, .fin _ => .isTrue trivial
  | .ninf, .pinf => .isTrue trivial
  | .fin _, .ninf => .isFalse id
  | .fin a, .fin b => inferInstanceAs (Decidable (a < b))
  | .fin _, .pinf => .isTrue trivial
  | .pinf, .ninf => .isFalse id
  | .pinf, .fin _ => .isFalse id
  | .pinf, .pinf => .isFalse id

/-- The <= comparison of C doubles extended to ±HUGE_VAL. -/
def XVal.le : XVal → XVal → Prop
  | .ninf, _ => True
  | .fin _, .ninf => False
  | .fin a, .fin b => a ≤ b
  | .fin _, .pinf => True
  | .pinf, .ninf => False
  | .pinf, .fin _ => False
  | .pinf, .pinf => True

instance : ∀ x y : XVal, Decidable (XVal.le x y)
  | .ninf, _ => .isTrue trivial
  | .fin _, .ninf => .isFalse id
  | .fin a, .fin b => inferInstanceAs (Decidable (a ≤ b))
  | .fin _, .pinf => .isTrue trivial
  | .pinf, .ninf => .isFalse id
  | .pinf, .fin _ => .isFalse id
  | .pinf, .pinf => .isTrue trivial

/-- fmax_ of src/linprog2d.c on possibly infinite values: (x > y) ? x : y. -/
def XVal.fmax (x y : XVal) : XVal := if XVal.lt y x then x else y

/-- fmin_ of src/linprog2d.c on possibly infinite values: (x < y) ? x : y. -/
def XVal.fmin (x y : XVal) : XVal := if XVal.lt x y then x else y

/-- feq_ of src/linprog2d.c on possibly infinite values.  When either
argument is infinite the C expression fabs(x - y) is +inf or NaN, and both
tolerance comparisons evaluate to false, so feq_ is false. -/
def XVal.feq : XVal → XVal → Prop
  | .fin a, .fin b => feq_ a b
  | _, _ => False

instance : ∀ x y : XVal, Decidable (XVal.feq x y)
  | .fin a, .fin b => inferInstanceAs (Decidable (feq_ a b))
  | .ninf, .ninf => .isFalse id
  | .ninf, .fin _ => .isFalse id
  | .ninf, .pinf => .isFalse id
  | .fin _, .ninf => .isFalse id
  | .fin _, .pinf => .isFalse id
  | .pinf, .ninf => .isFalse id
  | .pinf, .fin _ => .isFalse id
  | .pinf, .pinf => .isFalse id

/-- The rational value of a finite XVal (junk 0 on the infinities; every
use below is guarded so that the C code would read a finite double). -/
def XVal.toQ : XVal → ℚ
  | .fin a => a
  | _ => 0

/-- Square root on ℚ computed from the integer square roots of numerator
and denominator.  It is exact whenever the argument is the square of a
rational, which holds in every concrete run verified below (hypot_(0,1)=1);
all universally quantified theorems below are independent of its value. -/
def ratSqrt (q : ℚ) : ℚ := (Nat.sqrt q.num.toNat : ℚ) / (Nat.sqrt q.den : ℚ)

/-- hypot_ of src/linprog2d.c: sqrt(x*x + y*y). -/
def hypot_ (x y : ℚ) : ℚ := ratSqrt (x * x + y * y)

/-- vec2 of src/linprog2d.c. -/
structure vec2 where
  x : ℚ
  y : ℚ
deriving DecidableEq

/-- mat22 of src/linprog2d.c, entries a[row, column]. -/
structure mat22 where
  a11 : ℚ
  a12 : ℚ
  a21 : ℚ
  a22 : ℚ
deriving DecidableEq

/-- mat22_rot of src/linprog2d.c: rotation aligning (x, y) with (0, -y'). -/
def mat22_rot (x y : ℚ) : mat22 :=
  let h := hypot_ x y
  ⟨y / h, -x / h, x / h, y / h⟩

/-- enum linprog2d_status of linprog2d.h. -/
inductive linprog2d_status where
  | LP2D_ERROR : linprog2d_status
  | LP2D_INFEASIBLE : linprog2d_status
  | LP2D_UNBOUNDED : linprog2d_status
  | LP2D_EDGE : linprog2d_status
  | LP2D_POINT : linprog2d_status
deriving DecidableEq

export linprog2d_status (LP2D_ERROR LP2D_INFEASIBLE LP2D_UNBOUNDED LP2D_EDGE
  LP2D_POINT)

/-- struct linprog2d_result of linprog2d.h. -/
structure linprog2d_result where
  x1 : ℚ
  y1 : ℚ
  x2 : ℚ
  y2 : ℚ
  status : linprog2d_status
deriving DecidableEq

/-- linprog2d_result_create of src/linprog2d.c. -/
def linprog2d_result_create (status : linprog2d_status) (x1 y1 x2 y2 : ℚ) :
    linprog2d_result :=
  ⟨x1, y1, x2, y2, status⟩

/-- linprog2d_result_err of src/linprog2d.c. -/
def linprog2d_result_err : linprog2d_result :=
  linprog2d_result_create LP2D_ERROR 0 0 0 0

/-- linprog2d_result_infeasible of src/linprog2d.c. -/
def linprog2d_result_infeasible : linprog2d_result :=
  linprog2d_result_create LP2D_INFEASIBLE 0 0 0 0

/-- linprog2d_result_unbounded of src/linprog2d.c. -/
def linprog2d_result_unbounded : linprog2d_result :=
  linprog2d_result_create LP2D_UNBOUNDED 0 0 0 0

/-- linprog2d_result_transform_back of src/linprog2d.c: undo the offset o
and rotate back with the transpose of R. -/
def linprog2d_result_transform_back (R : mat22) (o : vec2) (x y : ℚ) :
    ℚ × ℚ :=
  let xt := x + o.x
  let yt := y + o.y
  (R.a11 * xt + R.a21 * yt, R.a12 * xt + R.a22 * yt)

/-- linprog2d_result_point of src/linprog2d.c. -/
def linprog2d_result_point (R : mat22) (o : vec2) (x y : ℚ) :
    linprog2d_result :=
  let p := linprog2d_result_transform_back R o x y
  linprog2d_result_create LP2D_POINT p.1 p.2 0 0

/-- linprog2d_result_edge of src/linprog2d.c. -/
def linprog2d_result_edge (R : mat22) (o : vec2) (x1 y1 x2 y2 : ℚ) :
    linprog2d_result :=
  let p1 := linprog2d_result_transform_back R o x1 y1
  let p2 := linprog2d_result_transform_back R o x2 y2
  linprog2d_result_create LP2D_EDGE p1.1 p1.2 p2.1 p2.2

/-- The per-solve state of struct linprog2d_data of src/linprog2d.c.  The
workspace arrays Gx/Gy/h/dx/y0 are modelled as total maps ℕ → ℚ; ceil and
floor are the index lists together with their lengths ceil_len/floor_len;
the x_intersect array is threaded explicitly through the iteration below
(the C code resets intersect_len at the top of every loop iteration). -/
structure linprog2d_data where
  Gx : ℕ → ℚ
  Gy : ℕ → ℚ
  h : ℕ → ℚ
  dx : ℕ → ℚ
  y0 : ℕ → ℚ
  ceil : List ℕ
  floor : List ℕ
  x0 : XVal
  x1 : XVal
  R : mat22
  o : vec2
  n : ℕ
  capacity : ℕ

/-- linprog2d_normalization_coeff of src/linprog2d.c. -/
def linprog2d_normalization_coeff (Gx Gy : ℚ) : ℚ := fmax_ |Gx| |Gy|

/-- Accumulator of the conditioning loop: constraints written so far, the
matrix G^T G (a21 = a12 as in the C code) and the vector G^T h. -/
structure CondAcc where
  written : List (ℚ × ℚ × ℚ)
  a11 : ℚ
  a12 : ℚ
  a22 : ℚ
  gx : ℚ
  gy : ℚ

/-- The rotation/normalization loop of linprog2d_condition_problem.  The
Bool is the C return value: false means a constraint 0 >= h with h > 0 was
met and the function aborted (the constraints written before the abort
remain in the workspace arrays, as in the C code). -/
def linprog2d_condition_loop (R : mat22) :
    List (ℚ × ℚ × ℚ) → CondAcc → Bool × CondAcc
  | [], acc => (true, acc)
  | (sgx, sgy, sh) :: rest, acc =>
    let Gx := R.a11 * sgx + R.a12 * sgy
    let Gy := R.a21 * sgx + R.a22 * sgy
    if feq_ Gx 0 ∧ feq_ Gy 0 then
      if sh ≤ 0 then linprog2d_condition_loop R rest acc
      else (false, acc)
    else
      let norm := linprog2d_normalization_coeff Gx Gy
      let Gx' := Gx / norm
      let Gy' := Gy / norm
      let h' := sh / norm
      linprog2d_condition_loop R rest
        ⟨acc.written ++ [(Gx', Gy', h')],
          acc.a11 + Gx' * Gx', acc.a12 + Gx' * Gy', acc.a22 + Gy' * Gy',
          acc.gx + Gx' * h', acc.gy + Gy' * h'⟩

/-- linprog2d_condition_problem of src/linprog2d.c.  Returns the C return
value, the conditioned constraints (with the least-squares offset already
subtracted from h on success), and the rotation/offset stored in the
workspace (on failure the C code returns before storing R and o, so the
reset values -- the zero matrix and the zero vector -- remain). -/
def linprog2d_condition_problem (cx cy : ℚ) (src : List (ℚ × ℚ × ℚ)) :
    Bool × List (ℚ × ℚ × ℚ) × mat22 × vec2 :=
  let R := mat22_rot cx cy
  let res := linprog2d_condition_loop R src ⟨[], 0, 0, 0, 0, 0⟩
  if res.1 then
    let acc := res.2
    let det := acc.a11 * acc.a22 - acc.a12 * acc.a12
    let o : vec2 :=
      if det ≠ 0 then
        ⟨(acc.a22 * acc.gx - acc.a12 * acc.gy) / det,
          (-acc.a12 * acc.gx + acc.a22 * acc.gy) / det⟩
      else ⟨0, 0⟩
    (true,
      acc.written.map (fun t => (t.1, t.2.1, t.2.2 - o.x * t.1 - o.y * t.2.1)),
      R, o)
  else
    (false, res.2.written, ⟨0, 0, 0, 0⟩, ⟨0, 0⟩)

/-- The CAT_* constants of src/linprog2d.c. -/
def CAT_VERT_LEFT : ℕ := 0

def CAT_VERT_RIGHT : ℕ := 1

def CAT_CEIL : ℕ := 2

def CAT_FLOOR : ℕ := 3

/-- linprog2d_constraint_category of src/linprog2d.c. -/
def linprog2d_constraint_category (Gx Gy : ℚ) : ℕ :=
  if feq_ Gy 0 then
    if Gx > 0 then CAT_VERT_LEFT else CAT_VERT_RIGHT
  else if Gy > 0 then CAT_FLOOR
  else CAT_CEIL

/-- linprog2d_categorize_constraints of src/linprog2d.c: sort constraint
indices into the ceil/floor lists, tighten x0/x1 from the vertical
constraints, and return x0 <= x1. -/
def linprog2d_categorize_constraints (s : linprog2d_data) :
    Bool × linprog2d_data :=
  let s' := (List.range s.n).foldl (fun acc i =>
    let cat := linprog2d_constraint_category (acc.Gx i) (acc.Gy i)
    if cat = CAT_VERT_LEFT then
      { acc with x0 := XVal.fmax acc.x0 (.fin (acc.h i / acc.Gx i)) }
    else if cat = CAT_VERT_RIGHT then
      { acc with x1 := XVal.fmin acc.x1 (.fin (acc.h i / acc.Gx i)) }
    else if cat = CAT_CEIL then { acc with ceil := acc.ceil ++ [i] }
    else { acc with floor := acc.floor ++ [i] }) s
  (decide (XVal.le s'.x0 s'.x1), s')

/-- linprog2d_calculate_yoffset_form of src/linprog2d.c as an update of
the dx and y0 maps. -/
def linprog2d_calculate_yoffset_form (idcs : List ℕ) (Gx Gy h : ℕ → ℚ)
    (dx y0 : ℕ → ℚ) : (ℕ → ℚ) × (ℕ → ℚ) :=
  idcs.foldl (fun f j =>
    (Function.update f.1 j (-(Gx j) / Gy j),
      Function.update f.2 j (h j / Gy j))) (dx, y0)

/-- linprog2d_calculate_intersect of src/linprog2d.c; none encodes the C
return value FALSE (parallel lines). -/
def linprog2d_calculate_intersect (Gx1 Gy1 h1 Gx2 Gy2 h2 : ℚ) :
    Option (ℚ × ℚ) :=
  let num_x := h1 * Gy2 - h2 * Gy1
  let num_y := h2 * Gx1 - h1 * Gx2
  let den := Gx1 * Gy2 - Gx2 * Gy1
  if feq_ den 0 then none
  else some (num_x / den, num_y / den)

/-- linprog2d_eliminate_constraint of src/linprog2d.c. -/
def linprog2d_eliminate_constraint (h dx : ℕ → ℚ) (ci0 ci1 : ℕ)
    (is_ceil is_parallel optimum_is_left : Bool) : ℕ :=
  if is_parallel then
    if h ci0 ≥ h ci1 then ci0 else ci1
  else
    let dir : ℚ := (if optimum_is_left then 1 else -1) *
      (if is_ceil then 1 else -1)
    if dir * dx ci0 ≥ dir * dx ci1 then ci0 else ci1

/-- The consecutive pairs idcs[2i], idcs[2i+1] of the pruning pass. -/
def pairList : List ℕ → List (ℕ × ℕ)
  | a :: b :: rest => (a, b) :: pairList rest
  | _ => []

/-- linprog2d_calculate_intersects of src/linprog2d.c.  Returns the new
index list (surviving pairs in front, in order, then the single survivors
in elimination order, then the unpaired trailing index, exactly as the C
code reassembles idcs from the two ends of tmp) together with the
x-coordinates appended to x_intersect. -/
def linprog2d_calculate_intersects (s : linprog2d_data) (idcs : List ℕ)
    (is_ceil has_median : Bool) (mx : ℚ) (optimum_is_left : Bool) :
    List ℕ × List ℚ :=
  let res := (pairList idcs).foldl (fun acc p =>
    match linprog2d_calculate_intersect (s.Gx p.1) (s.Gy p.1) (s.h p.1)
      (s.Gx p.2) (s.Gy p.2) (s.h p.2) with
    | none =>
        (acc.1,
          acc.2.1 ++ [linprog2d_eliminate_constraint s.h s.dx p.1 p.2
            is_ceil true false], acc.2.2)
    | some xy =>
        if XVal.lt (.fin xy.1) s.x0 ∨
            (has_median = true ∧ feq_ xy.1 mx ∧ optimum_is_left = false) then
          (acc.1,
            acc.2.1 ++ [linprog2d_eliminate_constraint s.h s.dx p.1 p.2
              is_ceil false false], acc.2.2)
        else if XVal.lt s.x1 (.fin xy.1) ∨
            (has_median = true ∧ feq_ xy.1 mx ∧ optimum_is_left = true) then
          (acc.1,
            acc.2.1 ++ [linprog2d_eliminate_constraint s.h s.dx p.1 p.2
              is_ceil false true], acc.2.2)
        else
          (acc.1 ++ [p.1, p.2], acc.2.1, acc.2.2 ++ [xy.1]))
    (([] : List ℕ), ([] : List ℕ), ([] : List ℚ))
  let singles :=
    if idcs.length % 2 = 1 then res.2.1 ++ [idcs.getD (idcs.length - 1) 0]
    else res.2.1
  (res.1 ++ singles, res.2.2)

/-- struct linprog2d_extremum of src/linprog2d.c. -/
structure linprog2d_extremum where
  y : XVal
  min_dx : XVal
  max_dx : XVal
  valid : Bool

/-- linprog2d_track_extrema of src/linprog2d.c. -/
def linprog2d_track_extrema (x : ℚ) (dx y0 : ℕ → ℚ) (idcs : List ℕ)
    (compute_min : Bool) : linprog2d_extremum :=
  idcs.foldl (fun e j =>
    let y : ℚ := y0 j + dx j * x
    if XVal.feq (.fin y) e.y then
      { e with max_dx := XVal.fmax (.fin (dx j)) e.max_dx,
               min_dx := XVal.fmin (.fin (dx j)) e.min_dx }
    else if (compute_min = true ∧ XVal.lt (.fin y) e.y) ∨
        (compute_min = false ∧ XVal.lt e.y (.fin y)) then
      { e with y := .fin y, min_dx := .fin (dx j), max_dx := .fin (dx j) }
    else e)
    ⟨if compute_min then .pinf else .ninf, .pinf, .ninf,
      decide (0 < idcs.length)⟩

/-- The LOC_* outcomes of linprog2d_locate_optimum; LOC_HERE carries the
solution height written through the out-parameter y in the C code. -/
inductive LPLoc where
  | infeasible : LPLoc
  | left : LPLoc
  | right : LPLoc
  | here : ℚ → LPLoc
  | here_edge : LPLoc
deriving DecidableEq

/-- linprog2d_locate_optimum of src/linprog2d.c. -/
def linprog2d_locate_optimum (s : linprog2d_data) (mx : ℚ) : LPLoc :=
  let e_ceil := linprog2d_track_extrema mx s.dx s.y0 s.ceil true
  let e_floor := linprog2d_track_extrema mx s.dx s.y0 s.floor false
  if e_ceil.valid = true ∧ XVal.lt e_ceil.y e_floor.y then
    if XVal.lt e_ceil.max_dx e_floor.min_dx then .left
    else if XVal.lt e_floor.max_dx e_ceil.min_dx then .right
    else .infeasible
  else if XVal.feq e_floor.min_dx (.fin 0) ∧
      ¬ XVal.feq e_floor.max_dx (.fin 0) then .left
  else if XVal.feq e_floor.max_dx (.fin 0) ∧
      ¬ XVal.feq e_floor.min_dx (.fin 0) then .right
  else if XVal.feq e_floor.max_dx (.fin 0) ∧
      XVal.feq e_floor.min_dx (.fin 0) then .here_edge
  else if XVal.lt e_floor.min_dx (.fin 0) ∧
      XVal.lt (.fin 0) e_floor.max_dx then .here e_floor.y.toQ
  else if XVal.lt (.fin 0) e_floor.min_dx then .left
  else .right

/-- linprog2d_calculate_edge_intersections of src/linprog2d.c: tighten the
pair (x0, x1) by the intersections of constraint if0 with the listed
constraints (the mx argument is unused, as in the C code). -/
def linprog2d_calculate_edge_intersections (s : linprog2d_data)
    (idcs : List ℕ) (if0 : ℕ) (mx : ℚ) (is_ceil : Bool) : XVal × XVal :=
  idcs.foldl (fun b j =>
    if j = if0 then b
    else
      match linprog2d_calculate_intersect (s.Gx if0) (s.Gy if0) (s.h if0)
        (s.Gx j) (s.Gy j) (s.h j) with
      | none => b
      | some r =>
          let b1 :=
            if ((is_ceil = true ∧ s.dx j > 0) ∨
                (is_ceil = false ∧ s.dx j < 0)) ∧
                XVal.lt b.1 (.fin r.1) then
              (XVal.fin r.1, b.2)
            else b
          if ((is_ceil = true ∧ s.dx j < 0) ∨
              (is_ceil = false ∧ s.dx j > 0)) ∧
              XVal.lt (.fin r.1) b1.2 then
            (b1.1, XVal.fin r.1)
          else b1) (s.x0, s.x1)

/-- linprog2d_calculate_edge of src/linprog2d.c: find the top-most
horizontal floor constraint if0, tighten x0/x1 by its intersections with
the ceil and floor constraints, and return the resulting point or edge. -/
def linprog2d_calculate_edge (s : linprog2d_data) (mx : ℚ) :
    linprog2d_result :=
  let sel := s.floor.foldl (fun p j =>
    if feq_ (s.dx j) 0 ∧ XVal.lt p.1 (.fin (s.y0 j)) then (XVal.fin (s.y0 j), j)
    else p) ((XVal.ninf, 0) : XVal × ℕ)
  let ry0 := sel.1
  let if0 := sel.2
  let b1 := linprog2d_calculate_edge_intersections s s.ceil if0 mx true
  let s' := { s with x0 := b1.1, x1 := b1.2 }
  let b2 := linprog2d_calculate_edge_intersections s' s'.floor if0 mx false
  if XVal.feq b2.1 b2.2 then
    linprog2d_result_point s.R s.o b2.1.toQ ry0.toQ
  else
    linprog2d_result_edge s.R s.o b2.1.toQ ry0.toQ b2.2.toQ ry0.toQ

/-- The tail of linprog2d_calculate_result of src/linprog2d.c, after x0/x1
were tightened by the remaining ceil constraint: return the lowest point
of the remaining floor constraint if0.  The C code computes
ry0 = y0[if0] + x0*dx[if0] and ry1 unconditionally; on the branches where
they are read, x0 (resp. x1) is finite, so evaluating them lazily at the
use sites is equivalent (on the other branches the C values are
infinities or NaNs that are never read). -/
def linprog2d_calculate_result_tail (s : linprog2d_data) (if0 : ℕ)
    (x0 x1 : XVal) : linprog2d_result :=
  if feq_ (s.dx if0) 0 then
    if XVal.lt .ninf x0 ∧ XVal.lt x1 .pinf then
      linprog2d_result_edge s.R s.o x0.toQ (s.y0 if0 + x0.toQ * s.dx if0)
        x1.toQ (s.y0 if0 + x1.toQ * s.dx if0)
    else linprog2d_result_unbounded
  else if s.dx if0 > 0 then
    if XVal.le x0 .ninf then linprog2d_result_unbounded
    else linprog2d_result_point s.R s.o x0.toQ (s.y0 if0 + x0.toQ * s.dx if0)
  else
    if XVal.le .pinf x1 then linprog2d_result_unbounded
    else linprog2d_result_point s.R s.o x1.toQ (s.y0 if0 + x1.toQ * s.dx if0)

/-- linprog2d_calculate_result of src/linprog2d.c. -/
def linprog2d_calculate_result (s : linprog2d_data) : linprog2d_result :=
  let ic0 := s.ceil.getD 0 0
  let if0 := s.floor.getD 0 0
  if s.floor.length = 0 then linprog2d_result_unbounded
  else if 0 < s.ceil.length then
    match linprog2d_calculate_intersect (s.Gx ic0) (s.Gy ic0) (s.h ic0)
      (s.Gx if0) (s.Gy if0) (s.h if0) with
    | some p =>
        if s.dx if0 > s.dx ic0 then
          linprog2d_calculate_result_tail s if0 s.x0 (XVal.fmin s.x1 (.fin p.1))
        else
          linprog2d_calculate_result_tail s if0 (XVal.fmax s.x0 (.fin p.1)) s.x1
    | none =>
        if ¬ feq_ (s.y0 if0) (s.y0 ic0) ∧ s.y0 if0 > s.y0 ic0 then
          linprog2d_result_infeasible
        else linprog2d_calculate_result_tail s if0 s.x0 s.x1
  else linprog2d_calculate_result_tail s if0 s.x0 s.x1

/-- The guard of the pruning loop in linprog2d_solve. -/
def linprog2d_loop_guard (s : linprog2d_data) : Prop :=
  s.floor.length ≠ 0 ∧ (1 < s.floor.length ∨ 1 < s.ceil.length) ∧
    (XVal.lt s.x0 s.x1 ∨ XVal.feq s.x1 s.x0)

instance (s : linprog2d_data) : Decidable (linprog2d_loop_guard s) :=
  inferInstanceAs (Decidable (_ ∧ _))

/-- One iteration of the pruning loop of linprog2d_solve: compute the
intersections of consecutive ceil and floor pairs (editing both lists in
place), and if any intersection survived, take the median of the recorded
x-coordinates, locate the optimum relative to it and either shrink the
interval, or return the final result.  The returned tuple carries the
loop-carried variables (state, has_median, x, optimum_is_left). -/
def linprog2d_iterate (s : linprog2d_data) (has_median : Bool) (mx : ℚ)
    (optimum_is_left : Bool) :
    (linprog2d_data × Bool × ℚ × Bool) ⊕ linprog2d_result :=
  let rc := linprog2d_calculate_intersects s s.ceil true has_median mx
    optimum_is_left
  let s1 := { s with ceil := rc.1 }
  let rf := linprog2d_calculate_intersects s1 s1.floor false has_median mx
    optimum_is_left
  let s2 := { s1 with floor := rf.1 }
  let xs := rc.2 ++ rf.2
  if xs.length = 0 then .inl (s2, has_median, mx, optimum_is_left)
  else
    let x := median xs
    match linprog2d_locate_optimum s2 x with
    | .infeasible => .inr linprog2d_result_infeasible
    | .left => .inl ({ s2 with x1 := XVal.fmin s2.x1 (.fin x) }, true, x, true)
    | .right => .inl ({ s2 with x0 := XVal.fmax s2.x0 (.fin x) }, true, x,
        false)
    | .here y => .inr (linprog2d_result_point s2.R s2.o x y)
    | .here_edge => .inr (linprog2d_calculate_edge s2 x)

/-- The pruning loop of linprog2d_solve.  The fuel bounds the number of
iterations; none is returned only when the fuel runs out, which no theorem
below relies on. -/
def linprog2d_loop (fuel : ℕ) (s : linprog2d_data) (has_median : Bool)
    (mx : ℚ) (optimum_is_left : Bool) : Option linprog2d_result :=
  if linprog2d_loop_guard s then
    match fuel with
    | 0 => none
    | f + 1 =>
      match linprog2d_iterate s has_median mx optimum_is_left with
      | .inl t => linprog2d_loop f t.1 t.2.1 t.2.2.1 t.2.2.2
      | .inr res => some res
  else some (linprog2d_calculate_result s)

/-- The phases of linprog2d_solve that follow conditioning: categorize the
constraints, compute the y-offset forms and run the pruning loop. -/
def linprog2d_solve_conditioned (fuel : ℕ) (s : linprog2d_data) :
    Option linprog2d_result :=
  let cat := linprog2d_categorize_constraints s
  if cat.1 = false then some linprog2d_result_infeasible
  else
    let s1 := cat.2
    let dy1 := linprog2d_calculate_yoffset_form s1.ceil s1.Gx s1.Gy s1.h
      s1.dx s1.y0
    let dy2 := linprog2d_calculate_yoffset_form s1.floor s1.Gx s1.Gy s1.h
      dy1.1 dy1.2
    let s2 := { s1 with dx := dy2.1, y0 := dy2.2 }
    linprog2d_loop fuel s2 false 0 false

/-- The caller-visible workspace: its capacity and the contents that the
constraint arrays Gx/Gy/h hold before the call (stale data from earlier
use; the C code allocates but does not initialize them). -/
structure linprog2d_ws where
  capacity : ℕ
  wGx : ℕ → ℚ
  wGy : ℕ → ℚ
  wh : ℕ → ℚ

/-- linprog2d_solve of src/linprog2d.c.  `none` for the workspace pointer
models a NULL argument.  On a successful conditioning pass only the
conditioned prefix of the arrays is ever read, so the state is built from
it alone; when conditioning fails the C code ignores the failure (the
return value of linprog2d_condition_problem is dropped) and continues with
prog->n still equal to n, reading the stale workspace contents past the
written prefix. -/
def linprog2d_solve (fuel : ℕ) (ws : Option linprog2d_ws) (cx cy : ℚ)
    (srcGx srcGy srch : List ℚ) (n : ℕ) : Option linprog2d_result :=
  match ws with
  | none => some linprog2d_result_err
  | some w =>
    if w.capacity < n then some linprog2d_result_err
    else
      let src := (List.range n).map
        (fun i => (srcGx.getD i 0, srcGy.getD i 0, srch.getD i 0))
      let c := linprog2d_condition_problem cx cy src
      if c.1 then
        linprog2d_solve_conditioned fuel
          ⟨fun j => (c.2.1.getD j (0, 0, 0)).1,
            fun j => (c.2.1.getD j (0, 0, 0)).2.1,
            fun j => (c.2.1.getD j (0, 0, 0)).2.2,
            fun _ => 0, fun _ => 0, [], [], .ninf, .pinf,
            c.2.2.1, c.2.2.2, c.2.1.length, w.capacity⟩
      else
        linprog2d_solve_conditioned fuel
          ⟨fun j => if j < c.2.1.length then (c.2.1.getD j (0, 0, 0)).1
            else w.wGx j,
            fun j => if j < c.2.1.length then (c.2.1.getD j (0, 0, 0)).2.1
            else w.wGy j,
            fun j => if j < c.2.1.length then (c.2.1.getD j (0, 0, 0)).2.2
            else w.wh j,
            fun _ => 0, fun _ => 0, [], [], .ninf, .pinf,
            c.2.2.1, c.2.2.2, n, w.capacity⟩

/-- The x-coordinates recorded by one iteration of the pruning loop (the
contents of x_intersect after the two linprog2d_calculate_intersects
calls). -/
def linprog2d_iterate_xs (s : linprog2d_data) (has_median : Bool) (mx : ℚ)
    (optimum_is_left : Bool) : List ℚ :=
  let rc := linprog2d_calculate_intersects s s.ceil true has_median mx
    optimum_is_left
  let s1 := { s with ceil := rc.1 }
  let rf := linprog2d_calculate_intersects s1 s1.floor false has_median mx
    optimum_is_left
  rc.2 ++ rf.2

def setcap (s : linprog2d_data) (c : ℕ) : linprog2d_data :=
  { s with capacity := c }

/-- The workspace state that linprog2d_solve hands to the conditioned
phases on the vee input of scenario S1 (capacity 2). -/
def c8state : linprog2d_data :=
  ⟨fun j => (([((1 : ℚ), (1 : ℚ), (0 : ℚ)),
      ((-1 : ℚ), (1 : ℚ), (0 : ℚ))]).getD j (0, 0, 0)).1,
    fun j => (([((1 : ℚ), (1 : ℚ), (0 : ℚ)),
      ((-1 : ℚ), (1 : ℚ), (0 : ℚ))]).getD j (0, 0, 0)).2.1,
    fun j => (([((1 : ℚ), (1 : ℚ), (0 : ℚ)),
      ((-1 : ℚ), (1 : ℚ), (0 : ℚ))]).getD j (0, 0, 0)).2.2,
    fun _ => 0, fun _ => 0, [], [], .ninf, .pinf,
    ⟨1, 0, 0, 1⟩, ⟨0, 0⟩, 2, 2⟩

/-- The state that conditioning builds for the pruning counterexample
input c = (0, 1), G = [(1,0), (-1,0), (-1,1), (-1,2)],
h = [-10, -10, -10, -10]. -/
def c2cond : linprog2d_data :=
  ⟨fun j => (([((1 : ℚ), (0 : ℚ), (-180/17 : ℚ)),
      ((-1 : ℚ), (0 : ℚ), (-160/17 : ℚ)),
      ((-1 : ℚ), (1 : ℚ), (-115/17 : ℚ)),
      ((-1/2 : ℚ), (1 : ℚ), (-35/17 : ℚ))]).getD j (0, 0, 0)).1,
    fun j => (([((1 : ℚ), (0 : ℚ), (-180/17 : ℚ)),
      ((-1 : ℚ), (0 : ℚ), (-160/17 : ℚ)),
      ((-1 : ℚ), (1 : ℚ), (-115/17 : ℚ)),
      ((-1/2 : ℚ), (1 : ℚ), (-35/17 : ℚ))]).getD j (0, 0, 0)).2.1,
    fun j => (([((1 : ℚ), (0 : ℚ), (-180/17 : ℚ)),
      ((-1 : ℚ), (0 : ℚ), (-160/17 : ℚ)),
      ((-1 : ℚ), (1 : ℚ), (-115/17 : ℚ)),
      ((-1/2 : ℚ), (1 : ℚ), (-35/17 : ℚ))]).getD j (0, 0, 0)).2.2,
    fun _ => 0, fun _ => 0, [], [], .ninf, .pinf,
    ⟨1, 0, 0, 1⟩, ⟨10/17, -45/17⟩, 4, 4⟩

/-- The same state after the categorizer (floors 2 and 3, x-interval
[-180/17, 160/17]) and the y-offset forms. -/
def c2state : linprog2d_data :=
  { c2cond with
    floor := [2, 3]
    x0 := .fin (-180/17)
    x1 := .fin (160/17)
    dx := Function.update (Function.update (fun _ => (0 : ℚ)) 2 1) 3 (1/2)
    y0 := Function.update (Function.update (fun _ => (0 : ℚ)) 2 (-115/17))
      3 (-35/17) }

/-- Two parallel floor constraints: the pruning iteration records no
intersection and eliminates one of them. -/
def c2par : linprog2d_data :=
  ⟨fun _ => 0, fun _ => 1, fun _ => 0, fun _ => 0, fun _ => 0, [], [0, 1],
    .ninf, .pinf, ⟨1, 0, 0, 1⟩, ⟨0, 0⟩, 2, 2⟩

/-- Two floor constraints meeting at the origin with positive slopes; the
feasible point (5, 6) satisfies both. -/
def c6s0 : linprog2d_data :=
  ⟨fun j => (([(-1 : ℚ), -1/2]).getD j 0), fun _ => 1, fun _ => 0,
    fun _ => 0, fun _ => 0, [], [], .ninf, .pinf, ⟨1, 0, 0, 1⟩, ⟨0, 0⟩,
    2, 2⟩

/-- The same state after the categorizer and the y-offset forms. -/
def c6s2 : linprog2d_data :=
  { c6s0 with
    floor := [0, 1]
    dx := Function.update (Function.update (fun _ => (0 : ℚ)) 0 1) 1 (1/2)
    y0 := Function.update (Function.update (fun _ => (0 : ℚ)) 0 0) 1 0 }

theorem listSwap_length (d : List ℚ) (i j : ℕ) :
    (listSwap d i j).length = d.length := by
  simp [listSwap]

theorem compSwap_length (d : List ℚ) (i j : ℕ) :
    (compSwap d i j).length = d.length := by
  unfold compSwap
  split <;> simp [listSwap_length]

theorem cons_set_perm (t : List ℚ) (j : ℕ) (x : ℚ) (hj : j < t.length) :
    (t.get ⟨j, hj⟩ :: t.set j x).Perm (x :: t) := by
  induction t generalizing j with
  | nil => simp at hj
  | cons y s ih =>
      cases j with
      | zero => simpa using List.Perm.swap x y s
      | succ j =>
          have hj' : j < s.length := by simpa using hj
          have h1 : (s.get ⟨j, hj'⟩ :: y :: s.set j x).Perm
              (y :: (s.get ⟨j, hj'⟩ :: s.set j x)) := List.Perm.swap _ _ _
          have h2 : (y :: (s.get ⟨j, hj'⟩ :: s.set j x)).Perm (y :: (x :: s)) :=
            (ih j hj').cons y
          have h3 : (y :: (x :: s)).Perm (x :: y :: s) := List.Perm.swap _ _ _
          simpa using (h1.trans h2).trans h3

theorem listSwap_perm (d : List ℚ) (i j : ℕ) (hi : i < d.length)
    (hj : j < d.length) : (listSwap d i j).Perm d := by
  induction d generalizing i j with
  | nil => simp at hi
  | cons x t ih =>
      cases i with
      | zero =>
          cases j with
          | zero => simp [listSwap]
          | succ j =>
              have hj' : j < t.length := by simpa using hj
              have hget : (x :: t).getD (j + 1) 0 = t.get ⟨j, hj'⟩ := by
                simpa using List.getD_eq_getElem t 0 hj'
              have : listSwap (x :: t) 0 (j + 1) =
                  t.get ⟨j, hj'⟩ :: t.set j x := by
                simp [listSwap, hget, List.getElem?_eq_getElem hj']
              rw [this]
              exact cons_set_perm t j x hj'
      | succ i =>
          cases j with
          | zero =>
              have hi' : i < t.length := by simpa using hi
              have hget : (x :: t).getD (i + 1) 0 = t.get ⟨i, hi'⟩ := by
                simpa using List.getD_eq_getElem t 0 hi'
              have : listSwap (x :: t) (i + 1) 0 =
                  t.get ⟨i, hi'⟩ :: t.set i x := by
                simp [listSwap, hget, List.getElem?_eq_getElem hi']
              rw [this]
              exact cons_set_perm t i x hi'
          | succ j =>
              have hi' : i < t.length := by simpa using hi
              have hj' : j < t.length := by simpa using hj
              have : listSwap (x :: t) (i + 1) (j + 1) =
                  x :: listSwap t i j := by
                simp [listSwap]
              rw [this]
              exact (ih i j hi' hj').cons x

theorem compSwap_perm (d : List ℚ) (i j : ℕ) (hi : i < d.length)
    (hj : j < d.length) : (compSwap d i j).Perm d := by
  unfold compSwap
  split
  · exact listSwap_perm d i j hi hj
  · exact List.Perm.refl d

theorem sort_perm (d : List ℚ) : (sort d).Perm d := by
  unfold sort
  split_ifs with h2 h3 h4 h5
  · exact compSwap_perm d 0 1 (by omega) (by omega)
  · have l1 := compSwap_length d 1 2
    have l2 := compSwap_length (compSwap d 1 2) 0 2
    exact ((compSwap_perm _ 0 1 (by omega) (by omega)).trans
      ((compSwap_perm _ 0 2 (by omega) (by omega)).trans
        (compSwap_perm _ 1 2 (by omega) (by omega))))
  · have l1 := compSwap_length d 0 1
    have l2 := compSwap_length (compSwap d 0 1) 2 3
    have l3 := compSwap_length (compSwap (compSwap d 0 1) 2 3) 0 2
    have l4 := compSwap_length (compSwap (compSwap (compSwap d 0 1) 2 3) 0 2) 1 3
    exact ((compSwap_perm _ 1 2 (by omega) (by omega)).trans
      ((compSwap_perm _ 1 3 (by omega) (by omega)).trans
        ((compSwap_perm _ 0 2 (by omega) (by omega)).trans
          ((compSwap_perm _ 2 3 (by omega) (by omega)).trans
            (compSwap_perm _ 0 1 (by omega) (by omega))))))
  · have l1 := compSwap_length d 0 1
    have l2 := compSwap_length (compSwap d 0 1) 3 4
    have l3 := compSwap_length (compSwap (compSwap d 0 1) 3 4) 2 4
    have l4 := compSwap_length (compSwap (compSwap (compSwap d 0 1) 3 4) 2 4) 2 3
    have l5 := compSwap_length (compSwap (compSwap (compSwap (compSwap d 0 1) 3 4) 2 4) 2 3) 0 3
    have l6 := compSwap_length (compSwap (compSwap (compSwap (compSwap (compSwap d 0 1) 3 4) 2 4) 2 3) 0 3) 0 2
    have l7 := compSwap_length (compSwap (compSwap (compSwap (compSwap (compSwap (compSwap d 0 1) 3 4) 2 4) 2 3) 0 3) 0 2) 1 4
    have l8 := compSwap_length (compSwap (compSwap (compSwap (compSwap (compSwap (compSwap (compSwap d 0 1) 3 4) 2 4) 2 3) 0 3) 0 2) 1 4) 1 3
    exact ((compSwap_perm _ 1 2 (by omega) (by omega)).trans
      ((compSwap_perm _ 1 3 (by omega) (by omega)).trans
        ((compSwap_perm _ 1 4 (by omega) (by omega)).trans
          ((compSwap_perm _ 0 2 (by omega) (by omega)).trans
            ((compSwap_perm _ 0 3 (by omega) (by omega)).trans
              ((compSwap_perm _ 2 3 (by omega) (by omega)).trans
                ((compSwap_perm _ 2 4 (by omega) (by omega)).trans
                  ((compSwap_perm _ 3 4 (by omega) (by omega)).trans
                    (compSwap_perm _ 0 1 (by omega) (by omega))))))))))
  · exact List.Perm.refl d

theorem compSwap2_01 (v0 v1 : ℚ) :
    compSwap [v0, v1] 0 1 = [min v0 v1, max v0 v1] := by
  rcases lt_or_le v1 v0 with h | h
  · simp [compSwap, listSwap, h, min_eq_right h.le, max_eq_left h.le]
  · simp [compSwap, listSwap, not_lt.mpr h, min_eq_left h, max_eq_right h]

theorem compSwap3_12 (v0 v1 v2 : ℚ) :
    compSwap [v0, v1, v2] 1 2 = [v0, min v1 v2, max v1 v2] := by
  rcases lt_or_le v2 v1 with h | h
  · simp [compSwap, listSwap, h, min_eq_right h.le, max_eq_left h.le]
  · simp [compSwap, listSwap, not_lt.mpr h, min_eq_left h, max_eq_right h]

theorem compSwap3_02 (v0 v1 v2 : ℚ) :
    compSwap [v0, v1, v2] 0 2 = [min v0 v2, v1, max v0 v2] := by
  rcases lt_or_le v2 v0 with h | h
  · simp [compSwap, listSwap, h, min_eq_right h.le, max_eq_left h.le]
  · simp [compSwap, listSwap, not_lt.mpr h, min_eq_left h, max_eq_right h]

theorem compSwap3_01 (v0 v1 v2 : ℚ) :
    compSwap [v0, v1, v2] 0 1 = [min v0 v1, max v0 v1, v2] := by
  rcases lt_or_le v1 v0 with h | h
  · simp [compSwap, listSwap, h, min_eq_right h.le, max_eq_left h.le]
  · simp [compSwap, listSwap, not_lt.mpr h, min_eq_left h, max_eq_right h]

theorem compSwap4_01 (v0 v1 v2 v3 : ℚ) :
    compSwap [v0, v1, v2, v3] 0 1 = [min v0 v1, max v0 v1, v2, v3] := by
  rcases lt_or_le v1 v0 with h | h
  · simp [compSwap, listSwap, h, min_eq_right h.le, max_eq_left h.le]
  · simp [compSwap, listSwap, not_lt.mpr h, min_eq_left h, max_eq_right h]

theorem compSwap4_23 (v0 v1 v2 v3 : ℚ) :
    compSwap [v0, v1, v2, v3] 2 3 = [v0, v1, min v2 v3, max v2 v3] := by
  rcases lt_or_le v3 v2 with h | h
  · simp [compSwap, listSwap, h, min_eq_right h.le, max_eq_left h.le]
  · simp [compSwap, listSwap, not_lt.mpr h, min_eq_left h, max_eq_right h]

theorem compSwap4_02 (v0 v1 v2 v3 : ℚ) :
    compSwap [v0, v1, v2, v3] 0 2 = [min v0 v2, v1, max v0 v2, v3] := by
  rcases lt_or_le v2 v0 with h | h
  · simp [compSwap, listSwap, h, min_eq_right h.le, max_eq_left h.le]
  · simp [compSwap, listSwap, not_lt.mpr h, min_eq_left h, max_eq_right h]

theorem compSwap4_13 (v0 v1 v2 v3 : ℚ) :
    compSwap [v0, v1, v2, v3] 1 3 = [v0, min v1 v3, v2, max v1 v3] := by
  rcases lt_or_le v3 v1 with h | h
  · simp [compSwap, listSwap, h, min_eq_right h.le, max_eq_left h.le]
  · simp [compSwap, listSwap, not_lt.mpr h, min_eq_left h, max_eq_right h]

theorem compSwap4_12 (v0 v1 v2 v3 : ℚ) :
    compSwap [v0, v1, v2, v3] 1 2 = [v0, min v1 v2, max v1 v2, v3] := by
  rcases lt_or_le v2 v1 with h | h
  · simp [compSwap, listSwap, h, min_eq_right h.le, max_eq_left h.le]
  · simp [compSwap, listSwap, not_lt.mpr h, min_eq_left h, max_eq_right h]

theorem compSwap5_01 (v0 v1 v2 v3 v4 : ℚ) :
    compSwap [v0, v1, v2, v3, v4] 0 1 = [min v0 v1, max v0 v1, v2, v3, v4] := by
  rcases lt_or_le v1 v0 with h | h
  · simp [compSwap, listSwap, h, min_eq_right h.le, max_eq_left h.le]
  · simp [compSwap, listSwap, not_lt.mpr h, min_eq_left h, max_eq_right h]

theorem compSwap5_34 (v0 v1 v2 v3 v4 : ℚ) :
    compSwap [v0, v1, v2, v3, v4] 3 4 = [v0, v1, v2, min v3 v4, max v3 v4] := by
  rcases lt_or_le v4 v3 with h | h
  · simp [compSwap, listSwap, h, min_eq_right h.le, max_eq_left h.le]
  · simp [compSwap, listSwap, not_lt.mpr h, min_eq_left h, max_eq_right h]

theorem compSwap5_24 (v0 v1 v2 v3 v4 : ℚ) :
    compSwap [v0, v1, v2, v3, v4] 2 4 = [v0, v1, min v2 v4, v3, max v2 v4] := by
  rcases lt_or_le v4 v2 with h | h
  · simp [compSwap, listSwap, h, min_eq_right h.le, max_eq_left h.le]
  · simp [compSwap, listSwap, not_lt.mpr h, min_eq_left h, max_eq_right h]

theorem compSwap5_23 (v0 v1 v2 v3 v4 : ℚ) :
    compSwap [v0, v1, v2, v3, v4] 2 3 = [v0, v1, min v2 v3, max v2 v3, v4] := by
  rcases lt_or_le v3 v2 with h | h
  · simp [compSwap, listSwap, h, min_eq_right h.le, max_eq_left h.le]
  · simp [compSwap, listSwap, not_lt.mpr h, min_eq_left h, max_eq_right h]

theorem compSwap5_03 (v0 v1 v2 v3 v4 : ℚ) :
    compSwap [v0, v1, v2, v3, v4] 0 3 = [min v0 v3, v1, v2, max v0 v3, v4] := by
  rcases lt_or_le v3 v0 with h | h
  · simp [compSwap, listSwap, h, min_eq_right h.le, max_eq_left h.le]
  · simp [compSwap, listSwap, not_lt.mpr h, min_eq_left h, max_eq_right h]

theorem compSwap5_02 (v0 v1 v2 v3 v4 : ℚ) :
    compSwap [v0, v1, v2, v3, v4] 0 2 = [min v0 v2, v1, max v0 v2, v3, v4] := by
  rcases lt_or_le v2 v0 with h | h
  · simp [compSwap, listSwap, h, min_eq_right h.le, max_eq_left h.le]
  · simp [compSwap, listSwap, not_lt.mpr h, min_eq_left h, max_eq_right h]

theorem compSwap5_14 (v0 v1 v2 v3 v4 : ℚ) :
    compSwap [v0, v1, v2, v3, v4] 1 4 = [v0, min v1 v4, v2, v3, max v1 v4] := by
  rcases lt_or_le v4 v1 with h | h
  · simp [compSwap, listSwap, h, min_eq_right h.le, max_eq_left h.le]
  · simp [compSwap, listSwap, not_lt.mpr h, min_eq_left h, max_eq_right h]

theorem compSwap5_13 (v0 v1 v2 v3 v4 : ℚ) :
    compSwap [v0, v1, v2, v3, v4] 1 3 = [v0, min v1 v3, v2, max v1 v3, v4] := by
  rcases lt_or_le v3 v1 with h | h
  · simp [compSwap, listSwap, h, min_eq_right h.le, max_eq_left h.le]
  · simp [compSwap, listSwap, not_lt.mpr h, min_eq_left h, max_eq_right h]

theorem compSwap5_12 (v0 v1 v2 v3 v4 : ℚ) :
    compSwap [v0, v1, v2, v3, v4] 1 2 = [v0, min v1 v2, max v1 v2, v3, v4] := by
  rcases lt_or_le v2 v1 with h | h
  · simp [compSwap, listSwap, h, min_eq_right h.le, max_eq_left h.le]
  · simp [compSwap, listSwap, not_lt.mpr h, min_eq_left h, max_eq_right h]

theorem length_eq_five {l : List ℚ} :
    l.length = 5 ↔ ∃ a b c d e, l = [a, b, c, d, e] := by
  constructor
  · intro h
    match l, h with
    | [a, b, c, d, e], _ => exact ⟨a, b, c, d, e, rfl⟩
  · rintro ⟨a, b, c, d, e, rfl⟩
    rfl

theorem length_eq_four' {l : List ℚ} :
    l.length = 4 ↔ ∃ a b c d, l = [a, b, c, d] := by
  constructor
  · intro h
    match l, h with
    | [a, b, c, d], _ => exact ⟨a, b, c, d, rfl⟩
  · rintro ⟨a, b, c, d, rfl⟩
    rfl

theorem sorted_two (x0 x1 : ℚ) (h01 : x0 ≤ x1) :
    ([x0, x1] : List ℚ).Sorted (· ≤ ·) := by
  simp [List.sorted_cons, h01]

theorem sorted_three (x0 x1 x2 : ℚ) (h01 : x0 ≤ x1) (h12 : x1 ≤ x2) :
    ([x0, x1, x2] : List ℚ).Sorted (· ≤ ·) := by
  simp only [List.sorted_cons, List.mem_cons, List.mem_singleton,
    List.not_mem_nil, List.sorted_nil]
  refine ⟨fun b hb => ?_, fun b hb => ?_, by simp⟩
  · rcases hb with rfl | rfl | h
    · exact h01
    · exact h01.trans h12
    · simp at h
  · rcases hb with rfl | h
    · exact h12
    · simp at h

theorem sorted_four (x0 x1 x2 x3 : ℚ) (h01 : x0 ≤ x1) (h12 : x1 ≤ x2)
    (h23 : x2 ≤ x3) : ([x0, x1, x2, x3] : List ℚ).Sorted (· ≤ ·) := by
  simp only [List.sorted_cons, List.mem_cons, List.mem_singleton,
    List.not_mem_nil, List.sorted_nil]
  refine ⟨fun b hb => ?_, fun b hb => ?_, fun b hb => ?_, by simp⟩
  · rcases hb with rfl | rfl | rfl | h
    · exact h01
    · exact h01.trans h12
    · exact (h01.trans h12).trans h23
    · simp at h
  · rcases hb with rfl | rfl | h
    · exact h12
    · exact h12.trans h23
    · simp at h
  · rcases hb with rfl | h
    · exact h23
    · simp at h

theorem sorted_five (x0 x1 x2 x3 x4 : ℚ) (h01 : x0 ≤ x1) (h12 : x1 ≤ x2)
    (h23 : x2 ≤ x3) (h34 : x3 ≤ x4) :
    ([x0, x1, x2, x3, x4] : List ℚ).Sorted (· ≤ ·) := by
  simp only [List.sorted_cons, List.mem_cons, List.mem_singleton,
    List.not_mem_nil, List.sorted_nil]
  refine ⟨fun b hb => ?_, fun b hb => ?_, fun b hb => ?_, fun b hb => ?_,
    by simp⟩
  · rcases hb with rfl | rfl | rfl | rfl | h
    · exact h01
    · exact h01.trans h12
    · exact (h01.trans h12).trans h23
    · exact ((h01.trans h12).trans h23).trans h34
    · simp at h
  · rcases hb with rfl | rfl | rfl | h
    · exact h12
    · exact h12.trans h23
    · exact (h12.trans h23).trans h34
    · simp at h
  · rcases hb with rfl | rfl | h
    · exact h23
    · exact h23.trans h34
    · simp at h
  · rcases hb with rfl | h
    · exact h34
    · simp at h

theorem net3_sorted (a b c a2 b1 c1 c2 a3 b3 : ℚ)
    (hb1 : b1 = min b c) (hc1 : c1 = max b c)
    (ha2 : a2 = min a c1) (hc2 : c2 = max a c1)
    (ha3 : a3 = min a2 b1) (hb3 : b3 = max a2 b1) :
    ([a3, b3, c2] : List ℚ).Sorted (· ≤ ·) := by
  subst ha3 hb3 ha2 hc2 hb1 hc1
  refine sorted_three _ _ _ min_le_max (max_le ?_ ?_)
  · exact min_le_max
  · exact le_trans min_le_max (le_max_right _ _)

theorem net4_sorted (a b c d a1 b1 c2 d2 a3 c3 b4 d4 b5 c5 : ℚ)
    (ha1 : a1 = min a b) (hb1 : b1 = max a b)
    (hc2 : c2 = min c d) (hd2 : d2 = max c d)
    (ha3 : a3 = min a1 c2) (hc3 : c3 = max a1 c2)
    (hb4 : b4 = min b1 d2) (hd4 : d4 = max b1 d2)
    (hb5 : b5 = min b4 c3) (hc5 : c5 = max b4 c3) :
    ([a3, b5, c5, d4] : List ℚ).Sorted (· ≤ ·) := by
  have q1 : a1 ≤ b1 := ha1 ▸ hb1 ▸ min_le_max
  have q2 : c2 ≤ d2 := hc2 ▸ hd2 ▸ min_le_max
  have q3 : a3 ≤ c3 := ha3 ▸ hc3 ▸ min_le_max
  have q4 : b4 ≤ d4 := hb4 ▸ hd4 ▸ min_le_max
  have q5 : b5 ≤ c5 := hb5 ▸ hc5 ▸ min_le_max
  have q6 : a3 ≤ a1 := ha3 ▸ min_le_left a1 c2
  have q7 : a3 ≤ c2 := ha3 ▸ min_le_right a1 c2
  have q8 : b1 ≤ d4 := hd4 ▸ le_max_left b1 d2
  have q9 : d2 ≤ d4 := hd4 ▸ le_max_right b1 d2
  have p1 : a3 ≤ b5 :=
    hb5 ▸ le_min (hb4 ▸ le_min (q6.trans q1) (q7.trans q2)) q3
  have p3 : c5 ≤ d4 :=
    hc5 ▸ max_le q4 (hc3 ▸ max_le (q1.trans q8) (q2.trans q9))
  exact sorted_four _ _ _ _ p1 q5 p3

theorem net5_sorted (a b c d e a1 b1 d2 e2 c3 e3 c4 d4 a5 d5 a6 c6 b7 e7 b8 d8
    b9 c9 : ℚ)
    (ha1 : a1 = min a b) (hb1 : b1 = max a b)
    (hd2 : d2 = min d e) (he2 : e2 = max d e)
    (hc3 : c3 = min c e2) (he3 : e3 = max c e2)
    (hc4 : c4 = min c3 d2) (hd4 : d4 = max c3 d2)
    (ha5 : a5 = min a1 d4) (hd5 : d5 = max a1 d4)
    (ha6 : a6 = min a5 c4) (hc6 : c6 = max a5 c4)
    (hb7 : b7 = min b1 e3) (he7 : e7 = max b1 e3)
    (hb8 : b8 = min b7 d5) (hd8 : d8 = max b7 d5)
    (hb9 : b9 = min b8 c6) (hc9 : c9 = max b8 c6) :
    ([a6, b9, c9, d8, e7] : List ℚ).Sorted (· ≤ ·) := by
  have q1 : a1 ≤ b1 := ha1 ▸ hb1 ▸ min_le_max
  have q2 : d2 ≤ e2 := hd2 ▸ he2 ▸ min_le_max
  have q3 : c3 ≤ e3 := hc3 ▸ he3 ▸ min_le_max
  have q4 : e2 ≤ e3 := he3 ▸ le_max_right c e2
  have q5 : d2 ≤ e3 := q2.trans q4
  have q6 : c4 ≤ d4 := hc4 ▸ hd4 ▸ min_le_max
  have q7 : d4 ≤ e3 := hd4 ▸ max_le q3 q5
  have q8 : a5 ≤ d5 := ha5 ▸ hd5 ▸ min_le_max
  have q9 : a5 ≤ a1 := ha5 ▸ min_le_left a1 d4
  have q10 : a6 ≤ a5 := ha6 ▸ min_le_left a5 c4
  have q11 : a6 ≤ c4 := ha6 ▸ min_le_right a5 c4
  have q12 : a6 ≤ c6 := ha6 ▸ hc6 ▸ min_le_max
  have q13 : b7 ≤ e7 := hb7 ▸ he7 ▸ min_le_max
  have q14 : b8 ≤ d8 := hb8 ▸ hd8 ▸ min_le_max
  have q15 : b9 ≤ c9 := hb9 ▸ hc9 ▸ min_le_max
  have q16 : b1 ≤ e7 := he7 ▸ le_max_left b1 e3
  have q17 : e3 ≤ e7 := he7 ▸ le_max_right b1 e3
  have q18 : d5 ≤ d8 := hd8 ▸ le_max_right b7 d5
  have q19 : d4 ≤ d5 := hd5 ▸ le_max_right a1 d4
  have p1 : a6 ≤ b9 := by
    refine hb9 ▸ le_min ?_ q12
    refine hb8 ▸ le_min ?_ (q10.trans q8)
    refine hb7 ▸ le_min ((q10.trans q9).trans q1) ((q11.trans q6).trans q7)
  have p3 : c9 ≤ d8 := by
    refine hc9 ▸ max_le q14 ?_
    refine hc6 ▸ max_le (q8.trans q18) ((q6.trans q19).trans q18)
  have p4 : d8 ≤ e7 := by
    refine hd8 ▸ max_le (hb7 ▸ le_trans (min_le_left b1 e3) q16) ?_
    refine hd5 ▸ max_le (q1.trans q16) (q7.trans q17)
  exact sorted_five _ _ _ _ _ p1 q15 p3 p4

theorem sort5_sorted (a b c d e : ℚ) :
    (sort [a, b, c, d, e]).Sorted (· ≤ ·) := by
  unfold sort
  rw [if_neg (by norm_num : ¬ ([a, b, c, d, e] : List ℚ).length = 2),
      if_neg (by norm_num : ¬ ([a, b, c, d, e] : List ℚ).length = 3),
      if_neg (by norm_num : ¬ ([a, b, c, d, e] : List ℚ).length = 4),
      if_pos (by norm_num : ([a, b, c, d, e] : List ℚ).length = 5)]
  rw [compSwap5_01, compSwap5_34, compSwap5_24, compSwap5_23, compSwap5_03,
    compSwap5_02, compSwap5_14, compSwap5_13, compSwap5_12]
  exact net5_sorted a b c d e _ _ _ _ _ _ _ _ _ _ _ _ _ _ _ _ _ _ rfl rfl rfl
    rfl rfl rfl rfl rfl rfl rfl rfl rfl rfl rfl rfl rfl rfl rfl

theorem sort4_sorted (a b c d : ℚ) :
    (sort [a, b, c, d]).Sorted (· ≤ ·) := by
  unfold sort
  rw [if_neg (by norm_num : ¬ ([a, b, c, d] : List ℚ).length = 2),
      if_neg (by norm_num : ¬ ([a, b, c, d] : List ℚ).length = 3),
      if_pos (by norm_num : ([a, b, c, d] : List ℚ).length = 4)]
  rw [compSwap4_01, compSwap4_23, compSwap4_02, compSwap4_13, compSwap4_12]
  exact net4_sorted a b c d _ _ _ _ _ _ _ _ _ _ rfl rfl rfl rfl rfl rfl rfl rfl
    rfl rfl

theorem sort3_sorted (a b c : ℚ) :
    (sort [a, b, c]).Sorted (· ≤ ·) := by
  unfold sort
  rw [if_neg (by norm_num : ¬ ([a, b, c] : List ℚ).length = 2),
      if_pos (by norm_num : ([a, b, c] : List ℚ).length = 3)]
  rw [compSwap3_12, compSwap3_02, compSwap3_01]
  exact net3_sorted a b c _ _ _ _ _ _ rfl rfl rfl rfl rfl rfl

theorem sort2_sorted (a b : ℚ) :
    (sort [a, b]).Sorted (· ≤ ·) := by
  unfold sort
  rw [if_pos (by norm_num : ([a, b] : List ℚ).length = 2)]
  rw [compSwap2_01]
  exact sorted_two _ _ min_le_max

theorem sort_length (d : List ℚ) : (sort d).length = d.length := by
  unfold sort
  split_ifs <;> simp [compSwap_length]

theorem sort_sorted (d : List ℚ) (h : d.length ≤ 5) :
    (sort d).Sorted (· ≤ ·) := by
  match d with
  | [] =>
      have : sort [] = [] := rfl
      simp [this]
  | [a] =>
      have : sort [a] = [a] := rfl
      simp [this]
  | [a, b] => exact sort2_sorted a b
  | [a, b, c] => exact sort3_sorted a b c
  | [a, b, c, d] => exact sort4_sorted a b c d
  | [a, b, c, d, e] => exact sort5_sorted a b c d e
  | a :: b :: c :: d :: e :: f :: rest => simp at h

theorem isort_length (d : List ℚ) : (isort d).length = d.length :=
  (List.perm_insertionSort _ d).length_eq

theorem isort_eq_of_perm {d e : List ℚ} (h : d.Perm e) : isort d = isort e :=
  List.eq_of_perm_of_sorted
    ((List.perm_insertionSort _ d).trans
      (h.trans (List.perm_insertionSort _ e).symm))
    (List.sorted_insertionSort _ d) (List.sorted_insertionSort _ e)

theorem sort_eq_isort (d : List ℚ) (h : d.length ≤ 5) : sort d = isort d :=
  List.eq_of_perm_of_sorted
    ((sort_perm d).trans (List.perm_insertionSort _ d).symm)
    (sort_sorted d h) (List.sorted_insertionSort _ d)

attribute [irreducible] sort

theorem listSwap_getD_of_lt (d : List ℚ) (i j k : ℕ) (hk : k < d.length) :
    (listSwap d i j).getD k 0 =
      if j = k then d.getD i 0 else if i = k then d.getD j 0 else d.getD k 0 := by
  unfold listSwap
  rw [List.getD_eq_getElem _ _ (by simpa using hk), List.getElem_set,
    List.getElem_set]
  split_ifs with h1 h2
  · rfl
  · rfl
  · exact (List.getD_eq_getElem _ _ hk).symm

theorem listSwap_getD_fst (d : List ℚ) (i j : ℕ) (hi : i < d.length)
    (hj : j < d.length) : (listSwap d i j).getD i 0 = d.getD j 0 := by
  rw [listSwap_getD_of_lt d i j i hi]
  rcases eq_or_ne j i with rfl | h
  · simp
  · simp [h]

theorem listSwap_getD_snd (d : List ℚ) (i j : ℕ) (hi : i < d.length)
    (hj : j < d.length) : (listSwap d i j).getD j 0 = d.getD i 0 := by
  rw [listSwap_getD_of_lt d i j j hj]
  simp

theorem listSwap_getD_other (d : List ℚ) (i j k : ℕ) (hki : k ≠ i)
    (hkj : k ≠ j) : (listSwap d i j).getD k 0 = d.getD k 0 := by
  rcases lt_or_le k d.length with hk | hk
  · rw [listSwap_getD_of_lt d i j k hk]
    simp [hki.symm, hkj.symm]
  · unfold listSwap
    rw [List.getD_eq_default _ _ (by simpa using hk),
      List.getD_eq_default _ _ hk]

theorem partitionGo_spec (piviot : ℚ) :
    ∀ fuel d0 d i l r, PartInv piviot d0 d i l r → r + 2 - i ≤ fuel →
      PartPost piviot d0 (partitionGo piviot fuel d i l r).1
        (partitionGo piviot fuel d i l r).2 := by
  intro fuel
  induction fuel with
  | zero =>
      intro d0 d i l r hinv hfuel
      exact absurd hfuel (by have := hinv.ir; omega)
  | succ fuel ih =>
      intro d0 d i l r hinv hfuel
      show PartPost piviot d0
        (partitionGo piviot (fuel + 1) d i l r).1
        (partitionGo piviot (fuel + 1) d i l r).2
      rw [partitionGo]
      by_cases hir : i ≤ r
      · rw [if_pos hir]
        have hiLen : i < d.length := lt_of_le_of_lt hir hinv.rlen
        have hlLen : l < d.length :=
          lt_of_le_of_lt (le_trans hinv.li hir) hinv.rlen
        have hrLen : r < d.length := hinv.rlen
        by_cases hlt : d.getD i 0 < piviot
        · rw [if_pos hlt]
          apply ih
          · refine ⟨(listSwap_length d l i).trans hinv.len,
              (listSwap_perm d l i hlLen hiLen).trans hinv.perm,
              Nat.succ_le_succ hinv.li, by omega,
              by rw [listSwap_length]; exact hinv.rlen, ?_, ?_, ?_, ?_⟩
            · intro j hj
              rcases Nat.lt_or_ge j l with hjl | hjl
              · rw [listSwap_getD_other d l i j (by omega)
                  (by have := hinv.li; omega)]
                exact hinv.lt_sec j hjl
              · have hjeq : j = l := by omega
                rw [hjeq, listSwap_getD_fst d l i hlLen hiLen]
                exact hlt
            · intro j hjl hji
              rcases Nat.lt_or_ge j i with hji' | hji'
              · rw [listSwap_getD_other d l i j (by omega) (by omega)]
                exact hinv.eq_sec j (by omega) hji'
              · have hjeq : j = i := by omega
                have hli : l < i := by omega
                rw [hjeq, listSwap_getD_snd d l i hlLen hiLen]
                exact hinv.eq_sec l (le_refl l) hli
            · intro j hrj hjlen
              have hli0 := hinv.li
              rw [listSwap_length] at hjlen
              rw [listSwap_getD_other d l i j (by omega) (by omega)]
              exact hinv.gt_sec j hrj hjlen
            · by_cases hli : l = i
              · obtain ⟨j0, hj0l, hj0r, hj0eq⟩ := hinv.mem_sec
                have hj0i : j0 ≠ i := by
                  intro h
                  rw [h] at hj0eq
                  rw [hj0eq] at hlt
                  exact lt_irrefl piviot hlt
                refine ⟨j0, by omega, hj0r, ?_⟩
                rw [listSwap_getD_other d l i j0 (by omega) hj0i]
                exact hj0eq
              · have hli' : l < i := lt_of_le_of_ne hinv.li hli
                refine ⟨i, by omega, hir, ?_⟩
                rw [listSwap_getD_snd d l i hlLen hiLen]
                exact hinv.eq_sec l (le_refl l) hli'
          · omega
        · rw [if_neg hlt]
          by_cases hgt : piviot < d.getD i 0
          · rw [if_pos hgt]
            have hr1 : 1 ≤ r := by
              by_contra hc
              obtain ⟨j0, hj0l, hj0r, hj0eq⟩ := hinv.mem_sec
              have hj0 : j0 = i := by omega
              rw [hj0] at hj0eq
              rw [hj0eq] at hgt
              exact lt_irrefl piviot hgt
            apply ih
            · refine ⟨(listSwap_length d r i).trans hinv.len,
                (listSwap_perm d r i hrLen hiLen).trans hinv.perm,
                hinv.li, by omega,
                by rw [listSwap_length]; omega, ?_, ?_, ?_, ?_⟩
              · intro j hj
                have hji : j < i := by have := hinv.li; omega
                rw [listSwap_getD_other d r i j (by omega) (by omega)]
                exact hinv.lt_sec j hj
              · intro j hjl hji
                rw [listSwap_getD_other d r i j (by omega) (by omega)]
                exact hinv.eq_sec j hjl hji
              · intro j hrj hjlen
                rw [listSwap_length] at hjlen
                rcases Nat.lt_or_ge j r with hjr | hjr
                · exact absurd hrj (by omega)
                · rcases Nat.eq_or_lt_of_le hjr with hjr' | hjr'
                  · rw [← hjr']
                    rw [listSwap_getD_fst d r i hrLen hiLen]
                    exact hgt
                  · rw [listSwap_getD_other d r i j (by omega) (by omega)]
                    exact hinv.gt_sec j hjr' hjlen
              · obtain ⟨j0, hj0l, hj0r, hj0eq⟩ := hinv.mem_sec
                have hj0i : j0 ≠ i := by
                  intro h
                  rw [h] at hj0eq
                  rw [hj0eq] at hgt
                  exact lt_irrefl piviot hgt
                by_cases hj0r' : j0 = r
                · have hirr : i ≠ r := by omega
                  refine ⟨i, hinv.li, by omega, ?_⟩
                  rw [listSwap_getD_snd d r i hrLen hiLen]
                  rw [← hj0r']
                  exact hj0eq
                · refine ⟨j0, hj0l, by omega, ?_⟩
                  rw [listSwap_getD_other d r i j0 hj0r' hj0i]
                  exact hj0eq
            · omega
          · rw [if_neg hgt]
            have heq : d.getD i 0 = piviot :=
              le_antisymm (not_lt.1 hgt) (not_lt.1 hlt)
            apply ih
            · refine ⟨hinv.len, hinv.perm, by have := hinv.li; omega, by omega,
                hinv.rlen, hinv.lt_sec, ?_, hinv.gt_sec, hinv.mem_sec⟩
              intro j hjl hji
              rcases Nat.lt_or_ge j i with hji' | hji'
              · exact hinv.eq_sec j hjl hji'
              · have : j = i := by omega
                rw [this]
                exact heq
            · omega
      · rw [if_neg hir]
        have hie : i = r + 1 := by have := hinv.ir; omega
        obtain ⟨j0, hj0l, hj0r, hj0eq⟩ := hinv.mem_sec
        refine ⟨hinv.len, hinv.perm, hinv.lt_sec,
          ⟨r, by omega, hinv.rlen, ?_, hinv.gt_sec⟩⟩
        intro j hjl hjr
        exact hinv.eq_sec j hjl (by omega)

theorem partition_spec (d : List ℚ) (piviot : ℚ) (hp : piviot ∈ d) :
    PartPost piviot d (partition d piviot).1 (partition d piviot).2 := by
  obtain ⟨n, hn, hne⟩ : ∃ n, n < d.length ∧ d.getD n 0 = piviot := by
    obtain ⟨n, hn, h⟩ := List.getElem_of_mem hp
    exact ⟨n, hn, by rw [List.getD_eq_getElem _ _ hn]; exact h⟩
  have hlen : 1 ≤ d.length := by omega
  exact partitionGo_spec piviot (d.length + 1) d d 0 0 (d.length - 1)
    ⟨rfl, List.Perm.refl d, le_refl 0, by omega, by omega,
      fun j hj => absurd hj (Nat.not_lt_zero j),
      fun j h1 h2 => absurd h2 (by omega),
      fun j h1 h2 => absurd h2 (by omega),
      ⟨n, Nat.zero_le n, by omega, hne⟩⟩
    (by omega)

theorem medians5_length : ∀ d : List ℚ, (medians5 d).length = d.length / 5
  | a :: b :: c :: d :: e :: rest => by
      have ih := medians5_length rest
      rw [medians5]
      simp only [List.length_cons, ih]
      omega
  | [] => by simp [medians5]
  | [a] => by simp [medians5]
  | [a, b] => by simp [medians5]
  | [a, b, c] => by simp [medians5]
  | [a, b, c, d] => by simp [medians5]

theorem medians5_subset : ∀ d : List ℚ, ∀ x ∈ medians5 d, x ∈ d
  | a :: b :: c :: d :: e :: rest => by
      intro x hx
      rw [medians5] at hx
      rcases List.mem_cons.1 hx with hx | hx
      · have hmem : x ∈ sort [a, b, c, d, e] := by
          rw [hx, List.getD_eq_getElem _ _ (by rw [sort_length]; norm_num)]
          exact List.getElem_mem _
        have := (sort_perm [a, b, c, d, e]).mem_iff.1 hmem
        simp only [List.mem_cons] at this ⊢
        tauto
      · have := medians5_subset rest x hx
        simp only [List.mem_cons] at this ⊢
        tauto
  | [] => by intro x hx; simp [medians5] at hx
  | [a] => by intro x hx; simp [medians5] at hx
  | [a, b] => by intro x hx; simp [medians5] at hx
  | [a, b, c] => by intro x hx; simp [medians5] at hx
  | [a, b, c, d] => by intro x hx; simp [medians5] at hx

theorem mem_take_getD {d : List ℚ} {n : ℕ} {x : ℚ} (h : x ∈ d.take n) :
    ∃ j, j < n ∧ j < d.length ∧ d.getD j 0 = x := by
  obtain ⟨j, hj, hx⟩ := List.getElem_of_mem h
  have hjlen : j < d.length := by
    have := hj
    simp only [List.length_take] at this
    omega
  have hjn : j < n := by
    have := hj
    simp only [List.length_take] at this
    omega
  refine ⟨j, hjn, hjlen, ?_⟩
  rw [List.getD_eq_getElem _ _ hjlen, ← hx]
  exact (List.getElem_take d).symm

theorem mem_drop_getD {d : List ℚ} {n : ℕ} {x : ℚ} (h : x ∈ d.drop n) :
    ∃ j, n ≤ j ∧ j < d.length ∧ d.getD j 0 = x := by
  obtain ⟨j, hj, hx⟩ := List.getElem_of_mem h
  have hjlen : n + j < d.length := by
    have := hj
    simp only [List.length_drop] at this
    omega
  refine ⟨n + j, by omega, hjlen, ?_⟩
  rw [List.getD_eq_getElem _ _ hjlen, ← hx]
  exact (List.getElem_drop d).symm

theorem isort_append_pivot (A B : List ℚ) (piv : ℚ)
    (hA : ∀ x ∈ A, x < piv) (hB : ∀ x ∈ B, piv ≤ x) :
    isort (A ++ piv :: B) = isort A ++ piv :: isort B := by
  refine @List.eq_of_perm_of_sorted ℚ (· ≤ ·) _ _ _ ?_ ?_ ?_
  · exact (List.perm_insertionSort _ _).trans
      (List.Perm.append (List.perm_insertionSort _ A).symm
        (List.Perm.cons piv (List.perm_insertionSort _ B).symm))
  · exact List.sorted_insertionSort _ _
  · show List.Pairwise (· ≤ ·) (isort A ++ piv :: isort B)
    rw [List.pairwise_append]
    refine ⟨List.sorted_insertionSort _ A, ?_, ?_⟩
    · rw [List.pairwise_cons]
      refine ⟨?_, List.sorted_insertionSort _ B⟩
      intro b hb
      exact hB b ((List.perm_insertionSort _ B).mem_iff.1 hb)
    · intro x hx y hy
      have hxA : x ∈ A := (List.perm_insertionSort _ A).mem_iff.1 hx
      rcases List.mem_cons.1 hy with rfl | hyB
      · exact (hA x hxA).le
      · exact (hA x hxA).le.trans
          (hB y ((List.perm_insertionSort _ B).mem_iff.1 hyB))

theorem kth_smallest_go_correct :
    ∀ fuel d k, d.length ≤ fuel → k < d.length →
      kth_smallest_go fuel d k = (isort d).getD k 0 := by
  intro fuel
  induction fuel with
  | zero =>
      intro d k hfuel hk
      omega
  | succ fuel ih =>
      intro d k hfuel hk
      rw [kth_smallest_go]
      by_cases h5 : d.length ≤ 5
      · rw [if_pos h5, sort_eq_isort d h5]
      · rw [if_neg h5]
        simp only []
        have hlen6 : 6 ≤ d.length := by omega
        have hmlen : (medians5 d).length = d.length / 5 := medians5_length d
        have hm1 : 1 ≤ (medians5 d).length := by omega
        have hmfuel : (medians5 d).length ≤ fuel := by omega
        have hmk : (medians5 d).length / 2 < (medians5 d).length := by omega
        have hpiv := ih (medians5 d) ((medians5 d).length / 2) hmfuel hmk
        set piviot := kth_smallest_go fuel (medians5 d)
          ((medians5 d).length / 2) with hpivdef
        have hpivmem : piviot ∈ d := by
          apply medians5_subset d
          rw [hpiv]
          have hklt : (medians5 d).length / 2 < (isort (medians5 d)).length := by
            rw [isort_length]
            exact hmk
          have : (isort (medians5 d)).getD ((medians5 d).length / 2) 0 ∈
              isort (medians5 d) := by
            rw [List.getD_eq_getElem _ _ hklt]
            exact List.getElem_mem _
          exact (List.perm_insertionSort _ _).mem_iff.1 this
        have hpost := partition_spec d piviot hpivmem
        obtain ⟨r', hlr, hrlen, heqsec, hgtsec⟩ := hpost.ex_r
        set d' := (partition d piviot).1 with hd'
        set l := (partition d piviot).2 with hl
        have hd'len : d'.length = d.length := hpost.len
        have hlLen : l < d.length := by omega
        have hdl : d'.getD l 0 = piviot := heqsec l (le_refl l) hlr
        have hl' : l < d'.length := by omega
        have hsplit : d' = d'.take l ++ piviot :: d'.drop (l + 1) := by
          have hdropc : d'.drop l = piviot :: d'.drop (l + 1) := by
            rw [List.drop_eq_getElem_cons hl']
            congr 1
            rw [← List.getD_eq_getElem d' 0 hl']
            exact hdl
          rw [← hdropc, List.take_append_drop]
        have hAlt : ∀ x ∈ d'.take l, x < piviot := by
          intro x hx
          obtain ⟨j, hjl, hjlen, hjx⟩ := mem_take_getD hx
          rw [← hjx]
          exact hpost.lt_sec j hjl
        have hBge : ∀ x ∈ d'.drop (l + 1), piviot ≤ x := by
          intro x hx
          obtain ⟨j, hjl, hjlen, hjx⟩ := mem_drop_getD hx
          rw [← hjx]
          rcases le_or_lt j r' with hjr | hjr
          · exact le_of_eq (heqsec j (by omega) hjr).symm
          · exact le_of_lt (hgtsec j hjr hjlen)
        have hisort : isort d = isort (d'.take l) ++ piviot ::
            isort (d'.drop (l + 1)) := by
          rw [isort_eq_of_perm hpost.perm.symm, hsplit,
            isort_append_pivot _ _ piviot hAlt hBge]
          rw [← hsplit]
        have hA_len : (isort (d'.take l)).length = l := by
          rw [isort_length, List.length_take]
          omega
        have hB_len : (d'.drop (l + 1)).length = d.length - l - 1 := by
          rw [List.length_drop]
          omega
        by_cases hlk : l = k
        · rw [if_pos hlk]
          rw [hisort, List.getD_append_right _ _ _ _ (by omega), hA_len, ← hlk]
          simp
        · rw [if_neg hlk]
          by_cases hkl : l > k
          · rw [if_pos hkl]
            have htake_len : (d'.take l).length = l := by
              rw [List.length_take]
              omega
            rw [ih (d'.take l) k (by omega) (by omega)]
            rw [hisort, List.getD_append _ _ _ _ (by omega)]
          · rw [if_neg hkl]
            have hkl' : l < k := by omega
            have hdrop_len : (d'.drop (l + 1)).length = d.length - l - 1 := hB_len
            rw [ih (d'.drop (l + 1)) (k - l - 1) (by omega) (by omega)]
            rw [hisort, List.getD_append_right _ _ _ _ (by omega), hA_len]
            have : k - l = (k - l - 1) + 1 := by omega
            rw [this]
            simp

theorem kth_smallest_correct (d : List ℚ) (k : ℕ) (hk : k < d.length) :
    kth_smallest d k = (isort d).getD k 0 :=
  kth_smallest_go_correct d.length d k (le_refl _) hk

theorem median_correct (d : List ℚ) (hd : d ≠ []) :
    median d = (isort d).getD (d.length / 2) 0 := by
  have hlen : 1 ≤ d.length := List.length_pos.2 hd
  exact kth_smallest_correct d (d.length / 2) (by omega)

theorem median_perm_invariant (d e : List ℚ) (hd : d ≠ []) (h : d.Perm e) :
    median d = median e := by
  have he : e ≠ [] := by
    intro hc
    rw [hc] at h
    exact hd (List.Perm.eq_nil h)
  rw [median_correct d hd, median_correct e he, isort_eq_of_perm h,
    h.length_eq]

theorem median_mem (d : List ℚ) (hd : d ≠ []) : median d ∈ d := by
  have hlen : 1 ≤ d.length := List.length_pos.2 hd
  rw [median_correct d hd]
  have hklt : d.length / 2 < (isort d).length := by
    rw [isort_length]
    omega
  have hmem : (isort d).getD (d.length / 2) 0 ∈ isort d := by
    rw [List.getD_eq_getElem _ _ hklt]
    exact List.getElem_mem _
  exact (List.perm_insertionSort _ d).mem_iff.1 hmem

/-! The linprog2d solver of src/linprog2d.c, embedded over exact rationals.
IEEE doubles are modelled by ℚ; the values -HUGE_VAL/+HUGE_VAL that the
solver stores in x0/x1 and in the extremum tracker are modelled by the
three-valued type XVal, whose comparison operators follow IEEE semantics
on those values (any feq_ involving an infinity is false, exactly as the
C feq_ evaluates to false on infinities and NaN differences). -/

theorem XVal.le_of_not_lt : ∀ {x y : XVal}, ¬ XVal.lt x y → XVal.le y x := by
  intro x y h
  cases x <;> cases y <;> simp_all [XVal.lt, XVal.le] <;> linarith

theorem XVal.le_fmax_left (x y : XVal) : XVal.le x (XVal.fmax x y) := by
  unfold XVal.fmax
  split_ifs with h
  · cases x <;> simp [XVal.le]
  · exact XVal.le_of_not_lt h

theorem XVal.fmin_le_left (x y : XVal) : XVal.le (XVal.fmin x y) x := by
  unfold XVal.fmin
  split_ifs with h
  · cases x <;> simp [XVal.le]
  · exact XVal.le_of_not_lt h

theorem XVal.le_refl (x : XVal) : XVal.le x x := by
  cases x <;> simp [XVal.le]

theorem XVal.le_trans {x y z : XVal} (h1 : XVal.le x y) (h2 : XVal.le y z) :
    XVal.le x z := by
  cases x <;> cases y <;> cases z <;> simp_all [XVal.le] <;> linarith

theorem XVal.le_of_lt {x y : XVal} (h : XVal.lt x y) : XVal.le x y := by
  cases x <;> cases y <;> simp_all [XVal.lt, XVal.le] <;> linarith

theorem XVal.fmax_le {x y z : XVal} (h1 : XVal.le x z) (h2 : XVal.le y z) :
    XVal.le (XVal.fmax x y) z := by
  unfold XVal.fmax
  split_ifs <;> assumption

theorem XVal.le_fmin {x y z : XVal} (h1 : XVal.le x y) (h2 : XVal.le x z) :
    XVal.le x (XVal.fmin y z) := by
  unfold XVal.fmin
  split_ifs <;> assumption

theorem XVal.fmin_le_snd (x y : XVal) : XVal.le (XVal.fmin x y) y := by
  unfold XVal.fmin
  split_ifs with h
  · exact XVal.le_of_lt h
  · exact XVal.le_refl y

theorem XVal.le_fmax_snd (x y : XVal) : XVal.le y (XVal.fmax x y) := by
  unfold XVal.fmax
  split_ifs with h
  · exact XVal.le_of_lt h
  · exact XVal.le_refl y

theorem feq_zero_iff (x : ℚ) : feq_ x 0 ↔ |x| < MAX_EPS_ABS := by
  constructor
  · intro h
    rcases h with h | h
    · simpa using h
    · exfalso
      rw [sub_zero, abs_zero, MAX_EPS_REL] at h
      unfold fmax_ at h
      have hx : (0 : ℚ) ≤ |x| := abs_nonneg x
      split_ifs at h <;> nlinarith
  · intro h
    left
    simpa using h

theorem feq_self (x : ℚ) : feq_ x x := by
  left
  rw [sub_self, abs_zero, MAX_EPS_ABS]
  norm_num

theorem pairList_length : ∀ L : List ℕ, (pairList L).length = L.length / 2
  | a :: b :: rest => by
      rw [pairList]
      simp only [List.length_cons, pairList_length rest]
      omega
  | [] => rfl
  | [a] => by simp [pairList]

theorem calculate_intersects_fold_len (s : linprog2d_data)
    (is_ceil has_median : Bool) (mx : ℚ) (optimum_is_left : Bool)
    (step : (List ℕ × List ℕ × List ℚ) → ℕ × ℕ → List ℕ × List ℕ × List ℚ)
    (hstep : step = fun acc p =>
      match linprog2d_calculate_intersect (s.Gx p.1) (s.Gy p.1) (s.h p.1)
        (s.Gx p.2) (s.Gy p.2) (s.h p.2) with
      | none =>
          (acc.1,
            acc.2.1 ++ [linprog2d_eliminate_constraint s.h s.dx p.1 p.2
              is_ceil true false], acc.2.2)
      | some xy =>
          if XVal.lt (.fin xy.1) s.x0 ∨
              (has_median = true ∧ feq_ xy.1 mx ∧ optimum_is_left = false) then
            (acc.1,
              acc.2.1 ++ [linprog2d_eliminate_constraint s.h s.dx p.1 p.2
                is_ceil false false], acc.2.2)
          else if XVal.lt s.x1 (.fin xy.1) ∨
              (has_median = true ∧ feq_ xy.1 mx ∧ optimum_is_left = true) then
            (acc.1,
              acc.2.1 ++ [linprog2d_eliminate_constraint s.h s.dx p.1 p.2
                is_ceil false true], acc.2.2)
          else
            (acc.1 ++ [p.1, p.2], acc.2.1, acc.2.2 ++ [xy.1])) :
    ∀ (P : List (ℕ × ℕ)) (acc : List ℕ × List ℕ × List ℚ),
      (P.foldl step acc).1.length + (P.foldl step acc).2.1.length +
        acc.2.2.length =
      acc.1.length + acc.2.1.length + P.length + (P.foldl step acc).2.2.length := by
  intro P
  induction P with
  | nil => intro acc; simp
  | cons p rest ih =>
      intro acc
      rw [List.foldl_cons]
      have hs := ih (step acc p)
      rw [hstep] at hs ⊢
      rcases hint : linprog2d_calculate_intersect (s.Gx p.1) (s.Gy p.1)
        (s.h p.1) (s.Gx p.2) (s.Gy p.2) (s.h p.2) with _ | xy
      · simp only [hint] at hs ⊢
        simp at hs ⊢
        omega
      · simp only [hint] at hs ⊢
        split_ifs at hs ⊢ <;> simp at hs ⊢ <;> omega

theorem calculate_intersects_len (s : linprog2d_data) (idcs : List ℕ)
    (is_ceil has_median : Bool) (mx : ℚ) (optimum_is_left : Bool) :
    (linprog2d_calculate_intersects s idcs is_ceil has_median mx
      optimum_is_left).1.length =
    idcs.length - idcs.length / 2 +
      (linprog2d_calculate_intersects s idcs is_ceil has_median mx
        optimum_is_left).2.length := by
  unfold linprog2d_calculate_intersects
  have hfold := calculate_intersects_fold_len s is_ceil has_median mx
    optimum_is_left _ rfl (pairList idcs) ([], [], [])
  have hpl := pairList_length idcs
  simp only [List.length_nil] at hfold
  split_ifs with hodd <;> simp only [List.length_append, List.length_cons,
    List.length_nil] <;> omega

theorem calculate_intersects_xs_bounds (s : linprog2d_data) (idcs : List ℕ)
    (is_ceil has_median : Bool) (mx : ℚ) (optimum_is_left : Bool) :
    ∀ x ∈ (linprog2d_calculate_intersects s idcs is_ceil has_median mx
      optimum_is_left).2,
      ¬ XVal.lt (.fin x) s.x0 ∧ ¬ XVal.lt s.x1 (.fin x) := by
  unfold linprog2d_calculate_intersects
  suffices h : ∀ (P : List (ℕ × ℕ)) (acc : List ℕ × List ℕ × List ℚ),
      (∀ x ∈ acc.2.2, ¬ XVal.lt (.fin x) s.x0 ∧ ¬ XVal.lt s.x1 (.fin x)) →
      ∀ x ∈ (P.foldl (fun acc p =>
        match linprog2d_calculate_intersect (s.Gx p.1) (s.Gy p.1) (s.h p.1)
          (s.Gx p.2) (s.Gy p.2) (s.h p.2) with
        | none =>
            (acc.1,
              acc.2.1 ++ [linprog2d_eliminate_constraint s.h s.dx p.1 p.2
                is_ceil true false], acc.2.2)
        | some xy =>
            if XVal.lt (.fin xy.1) s.x0 ∨
                (has_median = true ∧ feq_ xy.1 mx ∧
                  optimum_is_left = false) then
              (acc.1,
                acc.2.1 ++ [linprog2d_eliminate_constraint s.h s.dx p.1 p.2
                  is_ceil false false], acc.2.2)
            else if XVal.lt s.x1 (.fin xy.1) ∨
                (has_median = true ∧ feq_ xy.1 mx ∧
                  optimum_is_left = true) then
              (acc.1,
                acc.2.1 ++ [linprog2d_eliminate_constraint s.h s.dx p.1 p.2
                  is_ceil false true], acc.2.2)
            else
              (acc.1 ++ [p.1, p.2], acc.2.1, acc.2.2 ++ [xy.1])) acc).2.2,
        ¬ XVal.lt (.fin x) s.x0 ∧ ¬ XVal.lt s.x1 (.fin x) by
    intro x hx
    exact h (pairList idcs) ([], [], []) (by simp) x hx
  intro P
  induction P with
  | nil => intro acc hacc x hx; exact hacc x hx
  | cons p rest ih =>
      intro acc hacc x hx
      rw [List.foldl_cons] at hx
      refine ih _ ?_ x hx
      rcases hint : linprog2d_calculate_intersect (s.Gx p.1) (s.Gy p.1)
        (s.h p.1) (s.Gx p.2) (s.Gy p.2) (s.h p.2) with _ | xy
      · simp only [hint]
        exact hacc
      · simp only [hint]
        split_ifs with h1 h2
        · exact hacc
        · exact hacc
        · intro z hz
          simp only [List.mem_append, List.mem_singleton] at hz
          rcases hz with hz | hz
          · exact hacc z hz
          · rw [hz]
            constructor
            · intro hc
              exact h1 (Or.inl hc)
            · intro hc
              exact h2 (Or.inl hc)

theorem iterate_inl_spec (s : linprog2d_data) (hm : Bool) (mx : ℚ) (ol : Bool)
    (s' : linprog2d_data) (hm' : Bool) (mx' : ℚ) (ol' : Bool)
    (hit : linprog2d_iterate s hm mx ol = .inl (s', hm', mx', ol')) :
    s'.Gx = s.Gx ∧ s'.Gy = s.Gy ∧ s'.h = s.h ∧ s'.dx = s.dx ∧ s'.y0 = s.y0 ∧
    s'.R = s.R ∧ s'.o = s.o ∧ s'.n = s.n ∧
    XVal.le s.x0 s'.x0 ∧ XVal.le s'.x1 s.x1 ∧
    (linprog2d_iterate_xs s hm mx ol = [] →
      s'.floor.length + s'.ceil.length =
        (s.floor.length - s.floor.length / 2) +
          (s.ceil.length - s.ceil.length / 2) ∧
      s'.x0 = s.x0 ∧ s'.x1 = s.x1) ∧
    (linprog2d_iterate_xs s hm mx ol ≠ [] →
      mx' = median (linprog2d_iterate_xs s hm mx ol) ∧
      ¬ XVal.lt (.fin mx') s.x0 ∧ ¬ XVal.lt s.x1 (.fin mx') ∧
      ((s'.x0 = s.x0 ∧ s'.x1 = XVal.fmin s.x1 (.fin mx')) ∨
        (s'.x0 = XVal.fmax s.x0 (.fin mx') ∧ s'.x1 = s.x1))) := by
  have hxs_eq : linprog2d_iterate_xs s hm mx ol =
      (linprog2d_calculate_intersects s s.ceil true hm mx ol).2 ++
      (linprog2d_calculate_intersects
        { s with ceil := (linprog2d_calculate_intersects s s.ceil true hm mx
          ol).1 }
        s.floor false hm mx ol).2 := rfl
  have hlenc := calculate_intersects_len s s.ceil true hm mx ol
  have hlenf := calculate_intersects_len
    { s with ceil := (linprog2d_calculate_intersects s s.ceil true hm mx
      ol).1 } s.floor false hm mx ol
  have hbndc := calculate_intersects_xs_bounds s s.ceil true hm mx ol
  have hbndf := calculate_intersects_xs_bounds
    { s with ceil := (linprog2d_calculate_intersects s s.ceil true hm mx
      ol).1 } s.floor false hm mx ol
  rw [linprog2d_iterate] at hit
  simp only [] at hit
  by_cases hxs0 : ((linprog2d_calculate_intersects s s.ceil true hm mx ol).2 ++
      (linprog2d_calculate_intersects
        { s with ceil := (linprog2d_calculate_intersects s s.ceil true hm mx
          ol).1 } s.floor false hm mx ol).2).length = 0
  · rw [if_pos hxs0] at hit
    injection hit with hit1
    injection hit1 with h1 h2
    injection h2 with h2 h3
    injection h3 with h3 h4
    subst h1 h2 h3 h4
    have hxse : linprog2d_iterate_xs s hm mx ol = [] := by
      rw [hxs_eq]
      exact List.length_eq_zero.1 hxs0
    refine ⟨rfl, rfl, rfl, rfl, rfl, rfl, rfl, rfl, XVal.le_refl _,
      XVal.le_refl _, fun _ => ⟨?_, rfl, rfl⟩, fun hc => absurd hxse hc⟩
    have hrc2 : (linprog2d_calculate_intersects s s.ceil true hm mx
        ol).2.length = 0 := by
      simp only [List.length_append] at hxs0
      omega
    have hrf2 : (linprog2d_calculate_intersects
        { s with ceil := (linprog2d_calculate_intersects s s.ceil true hm mx
          ol).1 } s.floor false hm mx ol).2.length = 0 := by
      simp only [List.length_append] at hxs0
      omega
    simp only [hrc2, hrf2] at hlenc hlenf
    simp only [hlenf, hlenc]
    omega
  · rw [if_neg hxs0] at hit
    have hxsne : linprog2d_iterate_xs s hm mx ol ≠ [] := by
      rw [hxs_eq]
      intro hc
      rw [hc] at hxs0
      exact hxs0 rfl
    have hmedmem : median (linprog2d_iterate_xs s hm mx ol) ∈
        linprog2d_iterate_xs s hm mx ol := median_mem _ hxsne
    have hmedbnd : ¬ XVal.lt (.fin (median (linprog2d_iterate_xs s hm mx ol)))
        s.x0 ∧ ¬ XVal.lt s.x1
          (.fin (median (linprog2d_iterate_xs s hm mx ol))) := by
      rw [hxs_eq] at hmedmem
      rcases List.mem_append.1 hmedmem with hmm | hmm
      · exact hbndc _ hmm
      · exact hbndf _ hmm
    rcases hloc : linprog2d_locate_optimum
      { s with
        ceil := (linprog2d_calculate_intersects s s.ceil true hm mx ol).1,
        floor := (linprog2d_calculate_intersects
          { s with ceil := (linprog2d_calculate_intersects s s.ceil true hm
            mx ol).1 } s.floor false hm mx ol).1 }
      (median ((linprog2d_calculate_intersects s s.ceil true hm mx ol).2 ++
        (linprog2d_calculate_intersects
          { s with ceil := (linprog2d_calculate_intersects s s.ceil true hm
            mx ol).1 } s.floor false hm mx ol).2)) with
      _ | _ | _ | yy | _ <;> rw [hloc] at hit
    · exact absurd hit (by simp)
    · injection hit with hit1
      injection hit1 with h1 h2
      injection h2 with h2 h3
      injection h3 with h3 h4
      subst h1 h2 h3 h4
      exact ⟨rfl, rfl, rfl, rfl, rfl, rfl, rfl, rfl, XVal.le_refl _,
        XVal.fmin_le_left _ _, fun hc => absurd hc hxsne, fun _ =>
          ⟨(congrArg median hxs_eq).symm, hxs_eq ▸ hmedbnd.1,
            hxs_eq ▸ hmedbnd.2, Or.inl ⟨rfl, rfl⟩⟩⟩
    · injection hit with hit1
      injection hit1 with h1 h2
      injection h2 with h2 h3
      injection h3 with h3 h4
      subst h1 h2 h3 h4
      exact ⟨rfl, rfl, rfl, rfl, rfl, rfl, rfl, rfl, XVal.le_fmax_left _ _,
        XVal.le_refl _, fun hc => absurd hc hxsne, fun _ =>
          ⟨(congrArg median hxs_eq).symm, hxs_eq ▸ hmedbnd.1,
            hxs_eq ▸ hmedbnd.2, Or.inr ⟨rfl, rfl⟩⟩⟩
    · exact absurd hit (by simp)
    · exact absurd hit (by simp)

theorem result_tail_status (s : linprog2d_data) (if0 : ℕ) (x0 x1 : XVal) :
    (linprog2d_calculate_result_tail s if0 x0 x1).status ≠ LP2D_ERROR := by
  unfold linprog2d_calculate_result_tail
  split_ifs <;> simp [linprog2d_result_edge, linprog2d_result_unbounded,
    linprog2d_result_point, linprog2d_result_create]

theorem calculate_result_status (s : linprog2d_data) :
    (linprog2d_calculate_result s).status ≠ LP2D_ERROR := by
  unfold linprog2d_calculate_result
  split_ifs with h1 h2
  · simp [linprog2d_result_unbounded, linprog2d_result_create]
  · rcases hint : linprog2d_calculate_intersect (s.Gx (s.ceil.getD 0 0))
      (s.Gy (s.ceil.getD 0 0)) (s.h (s.ceil.getD 0 0))
      (s.Gx (s.floor.getD 0 0)) (s.Gy (s.floor.getD 0 0))
      (s.h (s.floor.getD 0 0)) with _ | p
    · simp only [hint]
      split_ifs <;> first
        | exact result_tail_status _ _ _ _
        | simp [linprog2d_result_infeasible, linprog2d_result_create]
    · simp only [hint]
      split_ifs <;> exact result_tail_status _ _ _ _
  · exact result_tail_status _ _ _ _

theorem calculate_edge_status (s : linprog2d_data) (mx : ℚ) :
    (linprog2d_calculate_edge s mx).status ≠ LP2D_ERROR := by
  unfold linprog2d_calculate_edge
  simp only []
  split_ifs <;> simp [linprog2d_result_point, linprog2d_result_edge,
    linprog2d_result_create]

theorem iterate_inr_status (s : linprog2d_data) (hm : Bool) (mx : ℚ)
    (ol : Bool) (r : linprog2d_result)
    (h : linprog2d_iterate s hm mx ol = .inr r) :
    r.status ≠ LP2D_ERROR := by
  rw [linprog2d_iterate] at h
  simp only [] at h
  by_cases hxs0 : ((linprog2d_calculate_intersects s s.ceil true hm mx ol).2 ++
      (linprog2d_calculate_intersects
        { s with ceil := (linprog2d_calculate_intersects s s.ceil true hm mx
          ol).1 } s.floor false hm mx ol).2).length = 0
  · rw [if_pos hxs0] at h
    exact absurd h (by simp)
  · rw [if_neg hxs0] at h
    rcases hloc : linprog2d_locate_optimum
      { s with
        ceil := (linprog2d_calculate_intersects s s.ceil true hm mx ol).1,
        floor := (linprog2d_calculate_intersects
          { s with ceil := (linprog2d_calculate_intersects s s.ceil true hm
            mx ol).1 } s.floor false hm mx ol).1 }
      (median ((linprog2d_calculate_intersects s s.ceil true hm mx ol).2 ++
        (linprog2d_calculate_intersects
          { s with ceil := (linprog2d_calculate_intersects s s.ceil true hm
            mx ol).1 } s.floor false hm mx ol).2)) with
      _ | _ | _ | yy | _ <;> rw [hloc] at h
    · injection h with h1
      rw [← h1]
      simp [linprog2d_result_infeasible, linprog2d_result_create]
    · exact absurd h (by simp)
    · exact absurd h (by simp)
    · injection h with h1
      rw [← h1]
      simp [linprog2d_result_point, linprog2d_result_create]
    · injection h with h1
      rw [← h1]
      exact calculate_edge_status _ _

theorem loop_status : ∀ (fuel : ℕ) (s : linprog2d_data) (hm : Bool) (mx : ℚ)
    (ol : Bool) (r : linprog2d_result),
    linprog2d_loop fuel s hm mx ol = some r → r.status ≠ LP2D_ERROR := by
  intro fuel
  induction fuel with
  | zero =>
      intro s hm mx ol r h
      rw [linprog2d_loop] at h
      by_cases hg : linprog2d_loop_guard s
      · rw [if_pos hg] at h
        exact absurd h (by simp)
      · rw [if_neg hg] at h
        rw [← Option.some_inj.1 h]
        exact calculate_result_status s
  | succ f ih =>
      intro s hm mx ol r h
      rw [linprog2d_loop] at h
      by_cases hg : linprog2d_loop_guard s
      · rw [if_pos hg] at h
        rcases hit : linprog2d_iterate s hm mx ol with t | res <;>
          rw [hit] at h
        · exact ih t.1 t.2.1 t.2.2.1 t.2.2.2 r h
        · rw [← Option.some_inj.1 h]
          exact iterate_inr_status s hm mx ol res hit
      · rw [if_neg hg] at h
        rw [← Option.some_inj.1 h]
        exact calculate_result_status s

theorem solve_conditioned_status (fuel : ℕ) (s : linprog2d_data)
    (r : linprog2d_result)
    (h : linprog2d_solve_conditioned fuel s = some r) :
    r.status ≠ LP2D_ERROR := by
  rw [linprog2d_solve_conditioned] at h
  simp only [] at h
  split_ifs at h
  · injection h with h1
    rw [← h1]
    simp [linprog2d_result_infeasible, linprog2d_result_create]
  · exact loop_status fuel _ false 0 false r h

theorem categorize_fold_spec (L : List ℕ) :
    ∀ acc : linprog2d_data,
      (L.foldl (fun acc i =>
        let cat := linprog2d_constraint_category (acc.Gx i) (acc.Gy i)
        if cat = CAT_VERT_LEFT then
          { acc with x0 := XVal.fmax acc.x0 (.fin (acc.h i / acc.Gx i)) }
        else if cat = CAT_VERT_RIGHT then
          { acc with x1 := XVal.fmin acc.x1 (.fin (acc.h i / acc.Gx i)) }
        else if cat = CAT_CEIL then { acc with ceil := acc.ceil ++ [i] }
        else { acc with floor := acc.floor ++ [i] }) acc).Gx = acc.Gx ∧
      (L.foldl (fun acc i =>
        let cat := linprog2d_constraint_category (acc.Gx i) (acc.Gy i)
        if cat = CAT_VERT_LEFT then
          { acc with x0 := XVal.fmax acc.x0 (.fin (acc.h i / acc.Gx i)) }
        else if cat = CAT_VERT_RIGHT then
          { acc with x1 := XVal.fmin acc.x1 (.fin (acc.h i / acc.Gx i)) }
        else if cat = CAT_CEIL then { acc with ceil := acc.ceil ++ [i] }
        else { acc with floor := acc.floor ++ [i] }) acc).Gy = acc.Gy ∧
      (L.foldl (fun acc i =>
        let cat := linprog2d_constraint_category (acc.Gx i) (acc.Gy i)
        if cat = CAT_VERT_LEFT then
          { acc with x0 := XVal.fmax acc.x0 (.fin (acc.h i / acc.Gx i)) }
        else if cat = CAT_VERT_RIGHT then
          { acc with x1 := XVal.fmin acc.x1 (.fin (acc.h i / acc.Gx i)) }
        else if cat = CAT_CEIL then { acc with ceil := acc.ceil ++ [i] }
        else { acc with floor := acc.floor ++ [i] }) acc).h = acc.h ∧
      XVal.le acc.x0 (L.foldl (fun acc i =>
        let cat := linprog2d_constraint_category (acc.Gx i) (acc.Gy i)
        if cat = CAT_VERT_LEFT then
          { acc with x0 := XVal.fmax acc.x0 (.fin (acc.h i / acc.Gx i)) }
        else if cat = CAT_VERT_RIGHT then
          { acc with x1 := XVal.fmin acc.x1 (.fin (acc.h i / acc.Gx i)) }
        else if cat = CAT_CEIL then { acc with ceil := acc.ceil ++ [i] }
        else { acc with floor := acc.floor ++ [i] }) acc).x0 ∧
      XVal.le (L.foldl (fun acc i =>
        let cat := linprog2d_constraint_category (acc.Gx i) (acc.Gy i)
        if cat = CAT_VERT_LEFT then
          { acc with x0 := XVal.fmax acc.x0 (.fin (acc.h i / acc.Gx i)) }
        else if cat = CAT_VERT_RIGHT then
          { acc with x1 := XVal.fmin acc.x1 (.fin (acc.h i / acc.Gx i)) }
        else if cat = CAT_CEIL then { acc with ceil := acc.ceil ++ [i] }
        else { acc with floor := acc.floor ++ [i] }) acc).x1 acc.x1 := by
  induction L with
  | nil =>
      intro acc
      exact ⟨rfl, rfl, rfl, XVal.le_refl _, XVal.le_refl _⟩
  | cons i rest ih =>
      intro acc
      rw [List.foldl_cons]
      simp only []
      split_ifs with h1 h2 h3 <;>
        obtain ⟨g1, g2, g3, g4, g5⟩ := ih _ <;>
        refine ⟨g1, g2, g3, ?_, ?_⟩ <;>
        first
          | exact XVal.le_trans (XVal.le_fmax_left _ _) g4
          | exact XVal.le_trans g5 (XVal.fmin_le_left _ _)
          | exact g4
          | exact g5

/-- The categorizer leaves the constraint arrays unchanged and only
tightens the interval: x0 does not decrease and x1 does not increase. -/
theorem categorize_monotone (s : linprog2d_data) :
    (linprog2d_categorize_constraints s).2.Gx = s.Gx ∧
    (linprog2d_categorize_constraints s).2.Gy = s.Gy ∧
    (linprog2d_categorize_constraints s).2.h = s.h ∧
    XVal.le s.x0 (linprog2d_categorize_constraints s).2.x0 ∧
    XVal.le (linprog2d_categorize_constraints s).2.x1 s.x1 := by
  unfold linprog2d_categorize_constraints
  simp only []
  exact categorize_fold_spec (List.range s.n) s

theorem edge_intersections_monotone (s : linprog2d_data) (idcs : List ℕ)
    (if0 : ℕ) (mx : ℚ) (is_ceil : Bool) :
    XVal.le s.x0
      (linprog2d_calculate_edge_intersections s idcs if0 mx is_ceil).1 ∧
    XVal.le (linprog2d_calculate_edge_intersections s idcs if0 mx is_ceil).2
      s.x1 := by
  unfold linprog2d_calculate_edge_intersections
  suffices hgen : ∀ (b : XVal × XVal), XVal.le s.x0 b.1 → XVal.le b.2 s.x1 →
      XVal.le s.x0 (idcs.foldl (fun b j =>
        if j = if0 then b
        else
          match linprog2d_calculate_intersect (s.Gx if0) (s.Gy if0) (s.h if0)
            (s.Gx j) (s.Gy j) (s.h j) with
          | none => b
          | some r =>
              let b1 :=
                if ((is_ceil = true ∧ s.dx j > 0) ∨
                    (is_ceil = false ∧ s.dx j < 0)) ∧
                    XVal.lt b.1 (.fin r.1) then
                  (XVal.fin r.1, b.2)
                else b
              if ((is_ceil = true ∧ s.dx j < 0) ∨
                  (is_ceil = false ∧ s.dx j > 0)) ∧
                  XVal.lt (.fin r.1) b1.2 then
                (b1.1, XVal.fin r.1)
              else b1) b).1 ∧
      XVal.le (idcs.foldl (fun b j =>
        if j = if0 then b
        else
          match linprog2d_calculate_intersect (s.Gx if0) (s.Gy if0) (s.h if0)
            (s.Gx j) (s.Gy j) (s.h j) with
          | none => b
          | some r =>
              let b1 :=
                if ((is_ceil = true ∧ s.dx j > 0) ∨
                    (is_ceil = false ∧ s.dx j < 0)) ∧
                    XVal.lt b.1 (.fin r.1) then
                  (XVal.fin r.1, b.2)
                else b
              if ((is_ceil = true ∧ s.dx j < 0) ∨
                  (is_ceil = false ∧ s.dx j > 0)) ∧
                  XVal.lt (.fin r.1) b1.2 then
                (b1.1, XVal.fin r.1)
              else b1) b).2 s.x1 by
    exact hgen (s.x0, s.x1) (XVal.le_refl _) (XVal.le_refl _)
  induction idcs with
  | nil => intro b hb1 hb2; exact ⟨hb1, hb2⟩
  | cons j rest ih =>
      intro b hb1 hb2
      rw [List.foldl_cons]
      by_cases hj : j = if0
      · rw [if_pos hj]
        exact ih b hb1 hb2
      · rw [if_neg hj]
        rcases hint : linprog2d_calculate_intersect (s.Gx if0) (s.Gy if0)
          (s.h if0) (s.Gx j) (s.Gy j) (s.h j) with _ | r
        · simp only [hint]
          exact ih b hb1 hb2
        · simp only [hint]
          apply ih
          · split_ifs with hc1 hc2 hc3 <;>
              first
                | exact hb1
                | exact XVal.le_trans hb1 (XVal.le_of_lt (by tauto))
          · split_ifs with hc1 hc2 hc3 <;>
              first
                | exact hb2
                | exact XVal.le_trans (XVal.le_of_lt (by tauto)) hb2

theorem XVal.le_fin_fin {a b : ℚ} (h : a ≤ b) : XVal.le (.fin a) (.fin b) := h

/-- Soundness of the vertical-constraint interval updates of the
categorizer: when every near-vertical constraint is exactly vertical with
a nonzero x-coefficient, the x-coordinate of any point satisfying the
conditioned constraints stays inside [x0, x1]. -/
theorem categorize_contain (s : linprog2d_data) (px py : ℚ)
    (hvert : ∀ i, i < s.n → feq_ (s.Gy i) 0 → s.Gy i = 0 ∧ s.Gx i ≠ 0)
    (hfeas : ∀ i, i < s.n → s.h i ≤ s.Gx i * px + s.Gy i * py)
    (hx0 : XVal.le s.x0 (.fin px)) (hx1 : XVal.le (.fin px) s.x1) :
    XVal.le (linprog2d_categorize_constraints s).2.x0 (.fin px) ∧
    XVal.le (.fin px) (linprog2d_categorize_constraints s).2.x1 := by
  unfold linprog2d_categorize_constraints
  simp only []
  suffices hgen : ∀ (L : List ℕ) (acc : linprog2d_data), acc.Gx = s.Gx →
      acc.Gy = s.Gy → acc.h = s.h → (∀ i ∈ L, i < s.n) →
      XVal.le acc.x0 (.fin px) → XVal.le (.fin px) acc.x1 →
      XVal.le (L.foldl (fun acc i =>
        let cat := linprog2d_constraint_category (acc.Gx i) (acc.Gy i)
        if cat = CAT_VERT_LEFT then
          { acc with x0 := XVal.fmax acc.x0 (.fin (acc.h i / acc.Gx i)) }
        else if cat = CAT_VERT_RIGHT then
          { acc with x1 := XVal.fmin acc.x1 (.fin (acc.h i / acc.Gx i)) }
        else if cat = CAT_CEIL then { acc with ceil := acc.ceil ++ [i] }
        else { acc with floor := acc.floor ++ [i] }) acc).x0 (.fin px) ∧
      XVal.le (.fin px) (L.foldl (fun acc i =>
        let cat := linprog2d_constraint_category (acc.Gx i) (acc.Gy i)
        if cat = CAT_VERT_LEFT then
          { acc with x0 := XVal.fmax acc.x0 (.fin (acc.h i / acc.Gx i)) }
        else if cat = CAT_VERT_RIGHT then
          { acc with x1 := XVal.fmin acc.x1 (.fin (acc.h i / acc.Gx i)) }
        else if cat = CAT_CEIL then { acc with ceil := acc.ceil ++ [i] }
        else { acc with floor := acc.floor ++ [i] }) acc).x1 by
    exact hgen (List.range s.n) s rfl rfl rfl
      (fun i hi => List.mem_range.1 hi) hx0 hx1
  intro L
  induction L with
  | nil =>
      intro acc _ _ _ _ h0 h1
      exact ⟨h0, h1⟩
  | cons i rest ih =>
      intro acc hGx hGy hh hmem h0 h1
      rw [List.foldl_cons]
      simp only []
      have hin : i < s.n := hmem i (List.mem_cons_self i rest)
      have hmem' : ∀ j ∈ rest, j < s.n := fun j hj =>
        hmem j (List.mem_cons_of_mem i hj)
      by_cases hfq : feq_ (acc.Gy i) 0
      · obtain ⟨hGy0, hGxne⟩ := hvert i hin (by rw [← hGy]; exact hfq)
        by_cases hgx : acc.Gx i > 0
        · have hcat : linprog2d_constraint_category (acc.Gx i) (acc.Gy i) =
              CAT_VERT_LEFT := by
            unfold linprog2d_constraint_category
            rw [if_pos hfq, if_pos hgx]
          rw [hcat]
          rw [if_pos rfl]
          refine ih _ hGx hGy hh hmem' ?_ h1
          refine XVal.fmax_le h0 (XVal.le_fin_fin ?_)
          have hf := hfeas i hin
          rw [← hGx, ← hh] at hf
          have hGy0' : acc.Gy i = 0 := by rw [hGy]; exact hGy0
          rw [← hGy, hGy0'] at hf
          rw [div_le_iff₀ hgx]
          linarith
        · have hcat : linprog2d_constraint_category (acc.Gx i) (acc.Gy i) =
              CAT_VERT_RIGHT := by
            unfold linprog2d_constraint_category
            rw [if_pos hfq, if_neg hgx]
          rw [hcat]
          rw [if_neg (by norm_num [CAT_VERT_RIGHT, CAT_VERT_LEFT]),
            if_pos rfl]
          refine ih _ hGx hGy hh hmem' h0 ?_
          refine XVal.le_fmin h1 (XVal.le_fin_fin ?_)
          have hneg : acc.Gx i < 0 := by
            rcases lt_trichotomy (acc.Gx i) 0 with hl | he | hg
            · exact hl
            · exact absurd (by rw [← hGx]; exact he) hGxne
            · exact absurd hg hgx
          have hf := hfeas i hin
          rw [← hGx, ← hh] at hf
          rw [le_div_iff_of_neg hneg]
          rw [hGy0] at hf
          linarith
      · by_cases hgy : acc.Gy i > 0
        · have hcat : linprog2d_constraint_category (acc.Gx i) (acc.Gy i) =
              CAT_FLOOR := by
            unfold linprog2d_constraint_category
            rw [if_neg hfq, if_pos hgy]
          rw [hcat]
          rw [if_neg (by norm_num [CAT_FLOOR, CAT_VERT_LEFT]),
            if_neg (by norm_num [CAT_FLOOR, CAT_VERT_RIGHT]),
            if_neg (by norm_num [CAT_FLOOR, CAT_CEIL])]
          exact ih _ hGx hGy hh hmem' h0 h1
        · have hcat : linprog2d_constraint_category (acc.Gx i) (acc.Gy i) =
              CAT_CEIL := by
            unfold linprog2d_constraint_category
            rw [if_neg hfq, if_neg hgy]
          rw [hcat]
          rw [if_neg (by norm_num [CAT_CEIL, CAT_VERT_LEFT]),
            if_neg (by norm_num [CAT_CEIL, CAT_VERT_RIGHT]), if_pos rfl]
          exact ih _ hGx hGy hh hmem' h0 h1

theorem fmax_pos_of_not_feq (a b : ℚ)
    (h : ¬(feq_ a 0 ∧ feq_ b 0)) : 0 < fmax_ |a| |b| := by
  have ha := abs_nonneg a
  have hb := abs_nonneg b
  have heps : (0 : ℚ) < MAX_EPS_ABS := by norm_num [MAX_EPS_ABS]
  rcases not_and_or.1 h with hn | hn
  · have := not_lt.1 (fun hlt => hn ((feq_zero_iff a).2 hlt))
    unfold fmax_
    split_ifs with hc
    · linarith
    · linarith [not_lt.1 hc]
  · have := not_lt.1 (fun hlt => hn ((feq_zero_iff b).2 hlt))
    unfold fmax_
    split_ifs with hc
    · linarith
    · linarith

theorem fmax_div_pos (a b c : ℚ) (hc : 0 < c) :
    fmax_ (a / c) (b / c) = fmax_ a b / c := by
  unfold fmax_
  by_cases h : a > b
  · rw [if_pos h, if_pos ((div_lt_div_iff_of_pos_right hc).2 h)]
  · rw [if_neg h, if_neg (fun hlt => h ((div_lt_div_iff_of_pos_right hc).1 hlt))]

/-- Invariant of the conditioning loop: every constraint written to the
workspace has max(|Gx|, |Gy|) exactly 1. -/
theorem condition_loop_norm (R : mat22) :
    ∀ (src : List (ℚ × ℚ × ℚ)) (acc : CondAcc),
      (∀ t ∈ acc.written, fmax_ |t.1| |t.2.1| = 1) →
      ∀ t ∈ (linprog2d_condition_loop R src acc).2.written,
        fmax_ |t.1| |t.2.1| = 1
  | [], _, hacc => hacc
  | (sgx, sgy, sh) :: rest, acc, hacc => by
      simp only [linprog2d_condition_loop]
      by_cases hz : feq_ (R.a11 * sgx + R.a12 * sgy) 0 ∧
          feq_ (R.a21 * sgx + R.a22 * sgy) 0
      · rw [if_pos hz]
        by_cases hh : sh ≤ 0
        · rw [if_pos hh]
          exact condition_loop_norm R rest acc hacc
        · rw [if_neg hh]
          exact hacc
      · rw [if_neg hz]
        refine condition_loop_norm R rest _ ?_
        intro t ht
        rcases List.mem_append.1 ht with ht | ht
        · exact hacc t ht
        · have hteq := List.mem_singleton.1 ht
          subst hteq
          have hpos : 0 < linprog2d_normalization_coeff
              (R.a11 * sgx + R.a12 * sgy) (R.a21 * sgx + R.a22 * sgy) :=
            fmax_pos_of_not_feq _ _ hz
          simp only []
          rw [abs_div, abs_div, abs_of_pos hpos]
          rw [fmax_div_pos _ _ _ hpos]
          exact div_self (ne_of_gt hpos)

/-- On success, every constraint returned by the conditioner has
max(|Gx|, |Gy|) = 1; the offset subtraction only rewrites h. -/
theorem condition_problem_norm (cx cy : ℚ) (src : List (ℚ × ℚ × ℚ)) :
    (linprog2d_condition_problem cx cy src).1 = true →
    ∀ t ∈ (linprog2d_condition_problem cx cy src).2.1,
      fmax_ |t.1| |t.2.1| = 1 := by
  unfold linprog2d_condition_problem
  simp only []
  cases hb : (linprog2d_condition_loop (mat22_rot cx cy) src
      ⟨[], 0, 0, 0, 0, 0⟩).1 with
  | false =>
      rw [if_neg Bool.false_ne_true]
      intro hfalse
      exact absurd hfalse Bool.false_ne_true
  | true =>
      rw [if_pos rfl]
      intro _ t ht
      simp only [List.mem_map] at ht
      obtain ⟨u, hu, hut⟩ := ht
      have hnorm := condition_loop_norm (mat22_rot cx cy) src
        ⟨[], 0, 0, 0, 0, 0⟩ (by intro t ht; simp at ht) u hu
      rw [← hut]
      simpa using hnorm

/-- C3: median(d, len) returns the element at rank len / 2 of the
ascending ordering of d (the upper median for even length), and the
returned value is the same on every permutation of the same multiset. -/
theorem C3_median_rank (d : List ℚ) (hd : d ≠ []) :
    median d = (isort d).getD (d.length / 2) 0 ∧
    ∀ e : List ℚ, d.Perm e → median d = median e :=
  ⟨median_correct d hd, fun e he => median_perm_invariant d e hd he⟩

theorem C3_median_rank_witness : ([3, 1, 2] : List ℚ) ≠ [] ∧
    median [3, 1, 2] =
      (isort [3, 1, 2]).getD (([3, 1, 2] : List ℚ).length / 2) 0 :=
  ⟨by simp, (C3_median_rank [3, 1, 2] (by simp)).1⟩

/-- C4 counterexample: for d = [1, 1] and pivot 1 (which occurs in d),
partition returns the count r = 0, but the element at index 1 > r equals
the pivot rather than strictly exceeding it, refuting the claimed
d[i] > pivot for all i > r. -/
theorem C4_partition_cex : (partition [1, 1] (1 : ℚ)).2 = 0 ∧
    (partition [1, 1] (1 : ℚ)).1.getD 1 0 = 1 := by
  constructor <;> norm_num [partition, partitionGo, listSwap]

/-- C4 (amended): for every pivot value occurring in d, partition permutes
d and returns a count r such that every element before index r is strictly
below the pivot, the element at index r equals the pivot, and every
element after index r is at least the pivot (strictness after r fails
exactly when the pivot occurs more than once). -/
theorem C4_partition_post (d : List ℚ) (piv : ℚ) (hp : piv ∈ d) :
    (partition d piv).1.Perm d ∧
    (∀ i, i < (partition d piv).2 → (partition d piv).1.getD i 0 < piv) ∧
    (partition d piv).1.getD (partition d piv).2 0 = piv ∧
    (∀ i, (partition d piv).2 < i → i < d.length →
      piv ≤ (partition d piv).1.getD i 0) := by
  have hpost := partition_spec d piv hp
  obtain ⟨r, hlr, hrlen, heq, hgt⟩ := hpost.ex_r
  refine ⟨hpost.perm, fun i hi => hpost.lt_sec i hi,
    heq _ (le_refl _) hlr, ?_⟩
  intro i hli hilen
  have hilen' : i < (partition d piv).1.length := by
    rw [hpost.len]
    exact hilen
  rcases le_or_lt i r with hir | hir
  · exact le_of_eq (heq i (by omega) hir).symm
  · exact le_of_lt (hgt i hir hilen')

theorem C4_partition_post_witness : (1 : ℚ) ∈ ([1, 1] : List ℚ) ∧
    (partition [1, 1] (1 : ℚ)).1.getD (partition [1, 1] (1 : ℚ)).2 0 = 1 :=
  ⟨by simp, (C4_partition_post [1, 1] 1 (by simp)).2.2.1⟩

/-- C5: a completed run of linprog2d_solve returns status LP2D_ERROR
exactly when the workspace pointer is null or the problem size exceeds the
workspace capacity, and in particular any capacity-128 workspace given
n = 129 yields the error result; no other input makes the status ERROR. -/
theorem C5_error_iff (fuel : ℕ) (ws : Option linprog2d_ws) (cx cy : ℚ)
    (gxl gyl hl : List ℚ) (n : ℕ) (r : linprog2d_result)
    (hr : linprog2d_solve fuel ws cx cy gxl gyl hl n = some r) :
    (r.status = LP2D_ERROR ↔
      ws = none ∨ ∃ w, ws = some w ∧ w.capacity < n) ∧
    ∀ w : linprog2d_ws, w.capacity = 128 →
      linprog2d_solve fuel (some w) cx cy gxl gyl hl 129 =
        some linprog2d_result_err := by
  constructor
  · rcases ws with _ | w
    · simp only [linprog2d_solve] at hr
      rw [← Option.some_inj.1 hr]
      constructor
      · intro _
        exact Or.inl rfl
      · intro _
        rfl
    · simp only [linprog2d_solve] at hr
      by_cases hcap : w.capacity < n
      · rw [if_pos hcap] at hr
        rw [← Option.some_inj.1 hr]
        constructor
        · intro _
          exact Or.inr ⟨w, rfl, hcap⟩
        · intro _
          rfl
      · rw [if_neg hcap] at hr
        have hne : r.status ≠ LP2D_ERROR := by
          split_ifs at hr
          · exact solve_conditioned_status fuel _ r hr
          · exact solve_conditioned_status fuel _ r hr
        constructor
        · intro hc
          exact absurd hc hne
        · rintro (hc | ⟨w', hw', hc⟩)
          · exact absurd hc (by simp)
          · rw [Option.some_inj.1 hw'] at hcap
            exact absurd hc hcap
  · intro w hw
    simp only [linprog2d_solve]
    rw [if_pos (by omega)]

theorem C5_error_iff_witness :
    linprog2d_solve 1 (some ⟨128, fun _ => 0, fun _ => 0, fun _ => 0⟩)
      0 0 [] [] [] 129 = some linprog2d_result_err ∧
    (linprog2d_result_err.status = LP2D_ERROR ↔
      (some ⟨128, fun _ => 0, fun _ => 0, fun _ => 0⟩ :
        Option linprog2d_ws) = none ∨
      ∃ w, (some ⟨128, fun _ => 0, fun _ => 0, fun _ => 0⟩ :
        Option linprog2d_ws) = some w ∧ w.capacity < 129) := by
  have hr : linprog2d_solve 1
      (some ⟨128, fun _ => 0, fun _ => 0, fun _ => 0⟩) 0 0 [] [] [] 129 =
      some linprog2d_result_err := by
    simp only [linprog2d_solve]
    rw [if_pos (by norm_num)]
  exact ⟨hr, (C5_error_iff 1 _ 0 0 [] [] [] 129 _ hr).1⟩

/-- C2 (amended): in an iteration of the pruning loop that continues, x0
never decreases and x1 never increases; when no intersections are
recorded, floor_len + ceil_len strictly decreases (given the loop guard);
when intersections are recorded, the new x equals their median, that
median lies weakly inside [x0, x1], and exactly one endpoint is clamped
to it with fmin/fmax -- the interval need not strictly shrink. -/
theorem C2_pruning_step (s : linprog2d_data) (hm : Bool) (mx : ℚ)
    (ol : Bool) (s' : linprog2d_data) (hm' : Bool) (mx' : ℚ) (ol' : Bool)
    (hg : linprog2d_loop_guard s)
    (hit : linprog2d_iterate s hm mx ol = .inl (s', hm', mx', ol')) :
    XVal.le s.x0 s'.x0 ∧ XVal.le s'.x1 s.x1 ∧
    (linprog2d_iterate_xs s hm mx ol = [] →
      s'.floor.length + s'.ceil.length <
        s.floor.length + s.ceil.length) ∧
    (linprog2d_iterate_xs s hm mx ol ≠ [] →
      mx' = median (linprog2d_iterate_xs s hm mx ol) ∧
      ¬ XVal.lt (.fin mx') s.x0 ∧ ¬ XVal.lt s.x1 (.fin mx') ∧
      ((s'.x0 = s.x0 ∧ s'.x1 = XVal.fmin s.x1 (.fin mx')) ∨
        (s'.x0 = XVal.fmax s.x0 (.fin mx') ∧ s'.x1 = s.x1))) := by
  obtain ⟨-, -, -, -, -, -, -, -, h0, h1, hemp, hne⟩ :=
    iterate_inl_spec s hm mx ol s' hm' mx' ol' hit
  refine ⟨h0, h1, ?_, hne⟩
  intro hxs
  obtain ⟨hlen, -, -⟩ := hemp hxs
  obtain ⟨hf0, hflor, -⟩ := hg
  rcases hflor with hf | hc
  · omega
  · omega

/-- C6 (amended): the interval updates of the categorizer, of a continuing
pruning-loop iteration and of the edge resolver are all monotone (x0 never
decreases, x1 never increases), and the categorizer's vertical-constraint
updates keep every feasible x-coordinate inside [x0, x1] whenever the
near-vertical constraints are exactly vertical; containment across
pruning-loop updates is refuted separately. -/
theorem C6_interval_monotone (s : linprog2d_data) :
    (XVal.le s.x0 (linprog2d_categorize_constraints s).2.x0 ∧
      XVal.le (linprog2d_categorize_constraints s).2.x1 s.x1) ∧
    (∀ (hm : Bool) (mx : ℚ) (ol : Bool) (s' : linprog2d_data) (hm' : Bool)
      (mx' : ℚ) (ol' : Bool),
      linprog2d_iterate s hm mx ol = .inl (s', hm', mx', ol') →
      XVal.le s.x0 s'.x0 ∧ XVal.le s'.x1 s.x1) ∧
    (∀ (idcs : List ℕ) (if0 : ℕ) (mx : ℚ) (is_ceil : Bool),
      XVal.le s.x0
        (linprog2d_calculate_edge_intersections s idcs if0 mx is_ceil).1 ∧
      XVal.le
        (linprog2d_calculate_edge_intersections s idcs if0 mx is_ceil).2
        s.x1) ∧
    (∀ px py : ℚ,
      (∀ i, i < s.n → feq_ (s.Gy i) 0 → s.Gy i = 0 ∧ s.Gx i ≠ 0) →
      (∀ i, i < s.n → s.h i ≤ s.Gx i * px + s.Gy i * py) →
      XVal.le s.x0 (.fin px) → XVal.le (.fin px) s.x1 →
      XVal.le (linprog2d_categorize_constraints s).2.x0 (.fin px) ∧
      XVal.le (.fin px) (linprog2d_categorize_constraints s).2.x1) := by
  obtain ⟨-, -, -, hc0, hc1⟩ := categorize_monotone s
  refine ⟨⟨hc0, hc1⟩, ?_, ?_, ?_⟩
  · intro hm mx ol s' hm' mx' ol' hit
    obtain ⟨-, -, -, -, -, -, -, -, h0, h1, -, -⟩ :=
      iterate_inl_spec s hm mx ol s' hm' mx' ol' hit
    exact ⟨h0, h1⟩
  · intro idcs if0 mx is_ceil
    exact edge_intersections_monotone s idcs if0 mx is_ceil
  · intro px py hvert hfeas hx0 hx1
    exact categorize_contain s px py hvert hfeas hx0 hx1

/-- C7: on a successful conditioning pass every stored constraint has
max(|Gx|, |Gy|) exactly 1 in exact arithmetic, and the later phases never
rewrite Gx or Gy: the categorizer and every continuing pruning-loop
iteration preserve both arrays. -/
theorem C7_normalized (cx cy : ℚ) (src : List (ℚ × ℚ × ℚ))
    (hok : (linprog2d_condition_problem cx cy src).1 = true) :
    (∀ t ∈ (linprog2d_condition_problem cx cy src).2.1,
      fmax_ |t.1| |t.2.1| = 1) ∧
    (∀ s : linprog2d_data,
      (linprog2d_categorize_constraints s).2.Gx = s.Gx ∧
      (linprog2d_categorize_constraints s).2.Gy = s.Gy) ∧
    (∀ (s : linprog2d_data) (hm : Bool) (mx : ℚ) (ol : Bool)
      (s' : linprog2d_data) (hm' : Bool) (mx' : ℚ) (ol' : Bool),
      linprog2d_iterate s hm mx ol = .inl (s', hm', mx', ol') →
      s'.Gx = s.Gx ∧ s'.Gy = s.Gy) := by
  refine ⟨condition_problem_norm cx cy src hok, ?_, ?_⟩
  · intro s
    obtain ⟨h1, h2, -, -, -⟩ := categorize_monotone s
    exact ⟨h1, h2⟩
  · intro s hm mx ol s' hm' mx' ol' hit
    obtain ⟨h1, h2, -, -, -, -, -, -, -, -, -, -⟩ :=
      iterate_inl_spec s hm mx ol s' hm' mx' ol' hit
    exact ⟨h1, h2⟩

theorem ratSqrt_one : ratSqrt 1 = 1 := by
  norm_num [ratSqrt, Nat.sqrt_one]

theorem mat22_rot_01 : mat22_rot 0 1 = ⟨1, 0, 0, 1⟩ := by
  have h1 : hypot_ 0 1 = 1 := by
    have h : (0 * 0 + 1 * 1 : ℚ) = 1 := by norm_num
    rw [hypot_, h, ratSqrt_one]
  rw [mat22_rot]
  simp [h1]

theorem C7_normalized_witness :
    (linprog2d_condition_problem 0 1 [((2 : ℚ), (0 : ℚ), (1 : ℚ))]).1 =
      true ∧
    fmax_ |(1 : ℚ)| |(0 : ℚ)| = 1 := by
  have hcond : linprog2d_condition_problem 0 1 [((2 : ℚ), 0, 1)] =
      (true, [(1, 0, 1/2)], ⟨1, 0, 0, 1⟩, ⟨0, 0⟩) := by
    rw [linprog2d_condition_problem, mat22_rot_01]
    norm_num [linprog2d_condition_loop, linprog2d_normalization_coeff,
      feq_, fmax_, MAX_EPS_ABS, MAX_EPS_REL, abs]
  have hok : (linprog2d_condition_problem 0 1 [((2 : ℚ), 0, 1)]).1 = true := by
    rw [hcond]
  have hmem : ((1 : ℚ), (0 : ℚ), (1/2 : ℚ)) ∈
      (linprog2d_condition_problem 0 1 [((2 : ℚ), 0, 1)]).2.1 := by
    rw [hcond]
    simp
  exact ⟨hok, (C7_normalized 0 1 [((2 : ℚ), 0, 1)] hok).1 (1, 0, 1/2) hmem⟩

theorem linprog2d_loop_no_guard (fuel : ℕ) (s : linprog2d_data)
    (hm : Bool) (mx : ℚ) (ol : Bool) (h : ¬ linprog2d_loop_guard s) :
    linprog2d_loop fuel s hm mx ol = some (linprog2d_calculate_result s) := by
  cases fuel with
  | zero => rw [linprog2d_loop, if_neg h]
  | succ f => rw [linprog2d_loop, if_neg h]

/-- C9: with a non-null workspace of any capacity and any objective
coefficients, solving a problem with n = 0 constraints returns status
LP2D_UNBOUNDED with all four result coordinates equal to zero, for any
contents of the source arrays. -/
theorem C9_empty_unbounded (fuel : ℕ) (w : linprog2d_ws) (cx cy : ℚ)
    (gxl gyl hl : List ℚ) :
    linprog2d_solve fuel (some w) cx cy gxl gyl hl 0 =
      some (linprog2d_result_create LP2D_UNBOUNDED 0 0 0 0) := by
  simp only [linprog2d_solve]
  rw [if_neg (by omega)]
  norm_num [linprog2d_condition_problem, linprog2d_condition_loop,
    linprog2d_solve_conditioned, linprog2d_categorize_constraints,
    linprog2d_calculate_yoffset_form, linprog2d_loop, linprog2d_loop_guard,
    XVal.le, XVal.lt, XVal.feq, List.range_zero]
  rw [linprog2d_loop_no_guard _ _ _ _ _ (by simp [linprog2d_loop_guard])]
  norm_num [linprog2d_calculate_result, linprog2d_result_unbounded,
    linprog2d_result_create]

/-- C1 (code bug): on the single constraint with direction (0, 0) and
h = 1 the conditioner reports failure -- a zero-direction constraint with
positive h -- but linprog2d_solve discards the return value of
linprog2d_condition_problem and keeps running on the stale workspace
arrays, answering LP2D_UNBOUNDED where the specification requires
LP2D_INFEASIBLE. -/
theorem C1_conditioner_failure_dropped :
    (linprog2d_condition_problem 0 1 [((0 : ℚ), (0 : ℚ), (1 : ℚ))]).1 =
      false ∧
    linprog2d_solve 1 (some ⟨1, fun _ => 1, fun _ => 0, fun _ => 0⟩) 0 1
      [0] [0] [1] 1 = some linprog2d_result_unbounded := by
  have hc : linprog2d_condition_problem 0 1 [((0 : ℚ), (0 : ℚ), (1 : ℚ))] =
      (false, [], ⟨0, 0, 0, 0⟩, ⟨0, 0⟩) := by
    rw [linprog2d_condition_problem, mat22_rot_01]
    norm_num [linprog2d_condition_loop, feq_, fmax_, MAX_EPS_ABS,
      MAX_EPS_REL, abs]
  refine ⟨by rw [hc], ?_⟩
  simp only [linprog2d_solve]
  rw [if_neg (by norm_num)]
  have hsrc : (List.range 1).map
      (fun i => (([0] : List ℚ).getD i 0, ([0] : List ℚ).getD i 0,
        ([1] : List ℚ).getD i 0)) = [(0, 0, 1)] := by
    norm_num [List.range_succ]
  norm_num [hsrc, hc, linprog2d_solve_conditioned,
    linprog2d_categorize_constraints, List.range_succ,
    linprog2d_constraint_category, CAT_VERT_LEFT, CAT_VERT_RIGHT, CAT_CEIL,
    CAT_FLOOR, feq_, fmax_, fmin_, MAX_EPS_ABS, MAX_EPS_REL, abs, XVal.le,
    XVal.fmax, XVal.lt, linprog2d_calculate_yoffset_form, linprog2d_loop,
    linprog2d_loop_guard, XVal.feq, linprog2d_calculate_result,
    linprog2d_result_unbounded, linprog2d_result_create]

theorem linprog2d_loop_succ (f : ℕ) (s : linprog2d_data) (hm : Bool)
    (mx : ℚ) (ol : Bool) :
    linprog2d_loop (f + 1) s hm mx ol =
      if linprog2d_loop_guard s then
        match linprog2d_iterate s hm mx ol with
        | .inl t => linprog2d_loop f t.1 t.2.1 t.2.2.1 t.2.2.2
        | .inr res => some res
      else some (linprog2d_calculate_result s) := by
  rw [linprog2d_loop]

theorem linprog2d_loop_one_succ (s : linprog2d_data) (hm : Bool) (mx : ℚ)
    (ol : Bool) (r : linprog2d_result)
    (h : linprog2d_loop 1 s hm mx ol = some r) (f : ℕ) :
    linprog2d_loop (f + 1) s hm mx ol = some r := by
  rw [show (1 : ℕ) = 0 + 1 from rfl] at h
  rw [linprog2d_loop_succ] at h
  rw [linprog2d_loop_succ]
  by_cases hg : linprog2d_loop_guard s
  · rw [if_pos hg] at h ⊢
    rcases hit : linprog2d_iterate s hm mx ol with t | res
    all_goals rw [hit] at h
    · have h0 : linprog2d_loop 0 t.1 t.2.1 t.2.2.1 t.2.2.2 = some r := h
      rw [linprog2d_loop] at h0
      by_cases hg2 : linprog2d_loop_guard t.1
      · rw [if_pos hg2] at h0
        exact Option.noConfusion h0
      · rw [if_neg hg2] at h0
        show linprog2d_loop f t.1 t.2.1 t.2.2.1 t.2.2.2 = some r
        rw [linprog2d_loop_no_guard f _ _ _ _ hg2]
        exact h0
    · exact h
  · rw [if_neg hg] at h ⊢
    exact h

theorem linprog2d_solve_conditioned_one_succ (s : linprog2d_data)
    (r : linprog2d_result) (h : linprog2d_solve_conditioned 1 s = some r)
    (f : ℕ) : linprog2d_solve_conditioned (f + 1) s = some r := by
  rw [linprog2d_solve_conditioned] at h ⊢
  simp only [] at h ⊢
  by_cases hcat : (linprog2d_categorize_constraints s).1 = false
  · rw [if_pos hcat] at h ⊢
    exact h
  · rw [if_neg hcat] at h ⊢
    exact linprog2d_loop_one_succ _ _ _ _ _ h f

theorem intersects_capzero (Gx Gy h dx y0 : ℕ → ℚ) (ceil floor : List ℕ)
    (x0 x1 : XVal) (R : mat22) (o : vec2) (n cap : ℕ) (idcs : List ℕ)
    (b1 b2 : Bool) (mx : ℚ) (b3 : Bool) :
    linprog2d_calculate_intersects
      ⟨Gx, Gy, h, dx, y0, ceil, floor, x0, x1, R, o, n, cap⟩ idcs b1 b2 mx
      b3 =
    linprog2d_calculate_intersects
      ⟨Gx, Gy, h, dx, y0, ceil, floor, x0, x1, R, o, n, 0⟩ idcs b1 b2 mx
      b3 := rfl

theorem locate_capzero (Gx Gy h dx y0 : ℕ → ℚ) (ceil floor : List ℕ)
    (x0 x1 : XVal) (R : mat22) (o : vec2) (n cap : ℕ) (mx : ℚ) :
    linprog2d_locate_optimum
      ⟨Gx, Gy, h, dx, y0, ceil, floor, x0, x1, R, o, n, cap⟩ mx =
    linprog2d_locate_optimum
      ⟨Gx, Gy, h, dx, y0, ceil, floor, x0, x1, R, o, n, 0⟩ mx := rfl

theorem edge_capzero (Gx Gy h dx y0 : ℕ → ℚ) (ceil floor : List ℕ)
    (x0 x1 : XVal) (R : mat22) (o : vec2) (n cap : ℕ) (mx : ℚ) :
    linprog2d_calculate_edge
      ⟨Gx, Gy, h, dx, y0, ceil, floor, x0, x1, R, o, n, cap⟩ mx =
    linprog2d_calculate_edge
      ⟨Gx, Gy, h, dx, y0, ceil, floor, x0, x1, R, o, n, 0⟩ mx := rfl

theorem iterate_setcap (s : linprog2d_data) (c : ℕ) (hm : Bool) (mx : ℚ)
    (ol : Bool) :
    linprog2d_iterate (setcap s c) hm mx ol =
      match linprog2d_iterate s hm mx ol with
      | .inl t => .inl (setcap t.1 c, t.2)
      | .inr r => .inr r := by
  obtain ⟨Gx, Gy, hv, dxv, y0v, cl, fl, x0v, x1v, Rv, ov, nv, capv⟩ := s
  rw [linprog2d_iterate, linprog2d_iterate]
  simp only [setcap, intersects_capzero, locate_capzero, edge_capzero]
  split_ifs with hxs
  · rfl
  · split
    all_goals rfl

theorem loop_setcap (fuel : ℕ) : ∀ (s : linprog2d_data) (c : ℕ) (hm : Bool)
    (mx : ℚ) (ol : Bool),
    linprog2d_loop fuel (setcap s c) hm mx ol =
      linprog2d_loop fuel s hm mx ol := by
  induction fuel with
  | zero =>
      intro s c hm mx ol
      rw [linprog2d_loop, linprog2d_loop]
      by_cases hg : linprog2d_loop_guard s
      · rw [if_pos hg, if_pos (show linprog2d_loop_guard (setcap s c) from hg)]
      · rw [if_neg hg,
          if_neg (show ¬ linprog2d_loop_guard (setcap s c) from hg)]
        rw [show linprog2d_calculate_result (setcap s c) =
          linprog2d_calculate_result s from rfl]
  | succ f ih =>
      intro s c hm mx ol
      rw [linprog2d_loop_succ, linprog2d_loop_succ]
      by_cases hg : linprog2d_loop_guard s
      · rw [if_pos hg, if_pos (show linprog2d_loop_guard (setcap s c) from hg)]
        rw [iterate_setcap]
        rcases hit : linprog2d_iterate s hm mx ol with t | r
        · show linprog2d_loop f (setcap t.1 c) t.2.1 t.2.2.1 t.2.2.2 =
            linprog2d_loop f t.1 t.2.1 t.2.2.1 t.2.2.2
          exact ih t.1 c t.2.1 t.2.2.1 t.2.2.2
        · rfl
      · rw [if_neg hg,
          if_neg (show ¬ linprog2d_loop_guard (setcap s c) from hg)]
        rw [show linprog2d_calculate_result (setcap s c) =
          linprog2d_calculate_result s from rfl]

theorem categorize_fold_setcap (L : List ℕ) :
    ∀ (Gx Gy hv dxv y0v : ℕ → ℚ) (cl fl : List ℕ) (x0v x1v : XVal)
      (Rv : mat22) (ov : vec2) (nv capv c : ℕ),
      L.foldl (fun acc i =>
        let cat := linprog2d_constraint_category (acc.Gx i) (acc.Gy i)
        if cat = CAT_VERT_LEFT then
          { acc with x0 := XVal.fmax acc.x0 (.fin (acc.h i / acc.Gx i)) }
        else if cat = CAT_VERT_RIGHT then
          { acc with x1 := XVal.fmin acc.x1 (.fin (acc.h i / acc.Gx i)) }
        else if cat = CAT_CEIL then { acc with ceil := acc.ceil ++ [i] }
        else { acc with floor := acc.floor ++ [i] })
        ⟨Gx, Gy, hv, dxv, y0v, cl, fl, x0v, x1v, Rv, ov, nv, c⟩ =
      setcap (L.foldl (fun acc i =>
        let cat := linprog2d_constraint_category (acc.Gx i) (acc.Gy i)
        if cat = CAT_VERT_LEFT then
          { acc with x0 := XVal.fmax acc.x0 (.fin (acc.h i / acc.Gx i)) }
        else if cat = CAT_VERT_RIGHT then
          { acc with x1 := XVal.fmin acc.x1 (.fin (acc.h i / acc.Gx i)) }
        else if cat = CAT_CEIL then { acc with ceil := acc.ceil ++ [i] }
        else { acc with floor := acc.floor ++ [i] })
        ⟨Gx, Gy, hv, dxv, y0v, cl, fl, x0v, x1v, Rv, ov, nv, capv⟩) c := by
  induction L with
  | nil =>
      intro Gx Gy hv dxv y0v cl fl x0v x1v Rv ov nv capv c
      rfl
  | cons i rest ih =>
      intro Gx Gy hv dxv y0v cl fl x0v x1v Rv ov nv capv c
      rw [List.foldl_cons, List.foldl_cons]
      simp only []
      split_ifs with h1 h2 h3
      · exact ih Gx Gy hv dxv y0v cl fl
          (XVal.fmax x0v (.fin (hv i / Gx i))) x1v Rv ov nv capv c
      · exact ih Gx Gy hv dxv y0v cl fl x0v
          (XVal.fmin x1v (.fin (hv i / Gx i))) Rv ov nv capv c
      · exact ih Gx Gy hv dxv y0v (cl ++ [i]) fl x0v x1v Rv ov nv capv c
      · exact ih Gx Gy hv dxv y0v cl (fl ++ [i]) x0v x1v Rv ov nv capv c

theorem categorize_setcap (s : linprog2d_data) (c : ℕ) :
    linprog2d_categorize_constraints (setcap s c) =
      ((linprog2d_categorize_constraints s).1,
        setcap (linprog2d_categorize_constraints s).2 c) := by
  obtain ⟨Gx, Gy, hv, dxv, y0v, cl, fl, x0v, x1v, Rv, ov, nv, capv⟩ := s
  rw [linprog2d_categorize_constraints, linprog2d_categorize_constraints]
  simp only [setcap]
  have hsnd := categorize_fold_setcap (List.range nv) Gx Gy hv dxv y0v cl fl
    x0v x1v Rv ov nv capv c
  refine Prod.ext ?_ ?_
  · show decide _ = decide _
    rw [decide_eq_decide, hsnd]
    exact Iff.rfl
  · exact hsnd

theorem solve_conditioned_setcap (fuel : ℕ) (s : linprog2d_data) (c : ℕ) :
    linprog2d_solve_conditioned fuel (setcap s c) =
      linprog2d_solve_conditioned fuel s := by
  rw [linprog2d_solve_conditioned, linprog2d_solve_conditioned]
  simp only [categorize_setcap]
  by_cases hcat : (linprog2d_categorize_constraints s).1 = false
  · rw [if_pos hcat, if_pos hcat]
  · rw [if_neg hcat, if_neg hcat]
    show linprog2d_loop fuel
      (setcap
        { (linprog2d_categorize_constraints s).2 with
          dx := (linprog2d_calculate_yoffset_form
            (linprog2d_categorize_constraints s).2.floor
            (linprog2d_categorize_constraints s).2.Gx
            (linprog2d_categorize_constraints s).2.Gy
            (linprog2d_categorize_constraints s).2.h
            (linprog2d_calculate_yoffset_form
              (linprog2d_categorize_constraints s).2.ceil
              (linprog2d_categorize_constraints s).2.Gx
              (linprog2d_categorize_constraints s).2.Gy
              (linprog2d_categorize_constraints s).2.h
              (linprog2d_categorize_constraints s).2.dx
              (linprog2d_categorize_constraints s).2.y0).1
            (linprog2d_calculate_yoffset_form
              (linprog2d_categorize_constraints s).2.ceil
              (linprog2d_categorize_constraints s).2.Gx
              (linprog2d_categorize_constraints s).2.Gy
              (linprog2d_categorize_constraints s).2.h
              (linprog2d_categorize_constraints s).2.dx
              (linprog2d_categorize_constraints s).2.y0).2).1,
          y0 := (linprog2d_calculate_yoffset_form
            (linprog2d_categorize_constraints s).2.floor
            (linprog2d_categorize_constraints s).2.Gx
            (linprog2d_categorize_constraints s).2.Gy
            (linprog2d_categorize_constraints s).2.h
            (linprog2d_calculate_yoffset_form
              (linprog2d_categorize_constraints s).2.ceil
              (linprog2d_categorize_constraints s).2.Gx
              (linprog2d_categorize_constraints s).2.Gy
              (linprog2d_categorize_constraints s).2.h
              (linprog2d_categorize_constraints s).2.dx
              (linprog2d_categorize_constraints s).2.y0).1
            (linprog2d_calculate_yoffset_form
              (linprog2d_categorize_constraints s).2.ceil
              (linprog2d_categorize_constraints s).2.Gx
              (linprog2d_categorize_constraints s).2.Gy
              (linprog2d_categorize_constraints s).2.h
              (linprog2d_categorize_constraints s).2.dx
              (linprog2d_categorize_constraints s).2.y0).2).2 }
        c) false 0 false =
      linprog2d_loop fuel
        { (linprog2d_categorize_constraints s).2 with
          dx := (linprog2d_calculate_yoffset_form
            (linprog2d_categorize_constraints s).2.floor
            (linprog2d_categorize_constraints s).2.Gx
            (linprog2d_categorize_constraints s).2.Gy
            (linprog2d_categorize_constraints s).2.h
            (linprog2d_calculate_yoffset_form
              (linprog2d_categorize_constraints s).2.ceil
              (linprog2d_categorize_constraints s).2.Gx
              (linprog2d_categorize_constraints s).2.Gy
              (linprog2d_categorize_constraints s).2.h
              (linprog2d_categorize_constraints s).2.dx
              (linprog2d_categorize_constraints s).2.y0).1
            (linprog2d_calculate_yoffset_form
              (linprog2d_categorize_constraints s).2.ceil
              (linprog2d_categorize_constraints s).2.Gx
              (linprog2d_categorize_constraints s).2.Gy
              (linprog2d_categorize_constraints s).2.h
              (linprog2d_categorize_constraints s).2.dx
              (linprog2d_categorize_constraints s).2.y0).2).1,
          y0 := (linprog2d_calculate_yoffset_form
            (linprog2d_categorize_constraints s).2.floor
            (linprog2d_categorize_constraints s).2.Gx
            (linprog2d_categorize_constraints s).2.Gy
            (linprog2d_categorize_constraints s).2.h
            (linprog2d_calculate_yoffset_form
              (linprog2d_categorize_constraints s).2.ceil
              (linprog2d_categorize_constraints s).2.Gx
              (linprog2d_categorize_constraints s).2.Gy
              (linprog2d_categorize_constraints s).2.h
              (linprog2d_categorize_constraints s).2.dx
              (linprog2d_categorize_constraints s).2.y0).1
            (linprog2d_calculate_yoffset_form
              (linprog2d_categorize_constraints s).2.ceil
              (linprog2d_categorize_constraints s).2.Gx
              (linprog2d_categorize_constraints s).2.Gy
              (linprog2d_categorize_constraints s).2.h
              (linprog2d_categorize_constraints s).2.dx
              (linprog2d_categorize_constraints s).2.y0).2).2 }
        false 0 false
    rw [loop_setcap]

set_option maxHeartbeats 1000000 in
theorem c8_core : linprog2d_solve_conditioned 1 c8state =
    some (linprog2d_result_create LP2D_POINT 0 0 0 0) := by
  norm_num [c8state, linprog2d_solve_conditioned,
    linprog2d_categorize_constraints, List.range_succ,
    linprog2d_constraint_category, CAT_VERT_LEFT, CAT_VERT_RIGHT, CAT_CEIL,
    CAT_FLOOR, feq_, fmax_, fmin_, MAX_EPS_ABS, MAX_EPS_REL, abs, XVal.le,
    linprog2d_calculate_yoffset_form, Function.update, linprog2d_loop,
    linprog2d_loop_guard, XVal.lt, XVal.feq, linprog2d_iterate,
    linprog2d_calculate_intersects, pairList, linprog2d_calculate_intersect,
    linprog2d_eliminate_constraint, median, kth_smallest, kth_smallest_go,
    sort, compSwap, listSwap, linprog2d_locate_optimum,
    linprog2d_track_extrema, XVal.fmax, XVal.fmin, XVal.toQ,
    linprog2d_result_point, linprog2d_result_transform_back,
    linprog2d_result_create]

/-- C8: on the vee c = (0, 1), G = [(1, 1), (-1, 1)], h = [0, 0], with any
workspace of capacity at least 2 and any positive loop fuel,
linprog2d_solve returns status LP2D_POINT at exactly (0, 0) -- in
particular within the specification's 1e-9 tolerance. -/
theorem C8_vee_point (f : ℕ) (w : linprog2d_ws) (hcap : 2 ≤ w.capacity) :
    linprog2d_solve (f + 1) (some w) 0 1 [1, -1] [1, 1] [0, 0] 2 =
      some (linprog2d_result_create LP2D_POINT 0 0 0 0) := by
  simp only [linprog2d_solve]
  rw [if_neg (by omega)]
  have hsrc : (List.range 2).map
      (fun i => (([1, -1] : List ℚ).getD i 0, ([1, 1] : List ℚ).getD i 0,
        ([0, 0] : List ℚ).getD i 0)) = [(1, 1, 0), (-1, 1, 0)] := by
    norm_num [List.range_succ]
  have hc : linprog2d_condition_problem 0 1 [(1, 1, 0), (-1, 1, 0)] =
      (true, [(1, 1, 0), (-1, 1, 0)], ⟨1, 0, 0, 1⟩, ⟨0, 0⟩) := by
    rw [linprog2d_condition_problem, mat22_rot_01]
    norm_num [linprog2d_condition_loop, linprog2d_normalization_coeff,
      feq_, fmax_, MAX_EPS_ABS, MAX_EPS_REL, abs]
  simp only [hsrc, hc]
  rw [if_pos trivial]
  refine linprog2d_solve_conditioned_one_succ _ _ ?_ f
  show linprog2d_solve_conditioned 1 (setcap c8state w.capacity) =
    some (linprog2d_result_create LP2D_POINT 0 0 0 0)
  rw [solve_conditioned_setcap]
  exact c8_core

theorem C8_vee_point_witness :
    2 ≤ (2 : ℕ) ∧
    linprog2d_solve 1 (some ⟨2, fun _ => 0, fun _ => 0, fun _ => 0⟩) 0 1
      [1, -1] [1, 1] [0, 0] 2 =
      some (linprog2d_result_create LP2D_POINT 0 0 0 0) :=
  ⟨by norm_num,
    C8_vee_point 0 ⟨2, fun _ => 0, fun _ => 0, fun _ => 0⟩ (by norm_num)⟩

set_option maxHeartbeats 1000000 in
/-- C2 counterexample: on the conditioned state of the input above, the
first pruning iteration records the intersection x = 160/17, yet the
iteration leaves x0, x1 and floor_len + ceil_len all unchanged (the
recorded median equals the current x1, so the fmin clamp is a no-op),
refuting the claimed strict shrink whenever intersections are recorded. -/
theorem C2_pruning_cex :
    linprog2d_condition_problem 0 1
      [(1, 0, -10), (-1, 0, -10), (-1, 1, -10), (-1, 2, -10)] =
      (true, [(1, 0, -180/17), (-1, 0, -160/17), (-1, 1, -115/17),
        (-1/2, 1, -35/17)], ⟨1, 0, 0, 1⟩, ⟨10/17, -45/17⟩) ∧
    linprog2d_categorize_constraints c2cond =
      (true, { c2cond with
        floor := [2, 3]
        x0 := .fin (-180/17)
        x1 := .fin (160/17) }) ∧
    linprog2d_iterate_xs c2state false 0 false ≠ [] ∧
    Sum.elim
      (fun t => t.1.x0 = c2state.x0 ∧ t.1.x1 = c2state.x1 ∧
        t.1.floor.length + t.1.ceil.length =
          c2state.floor.length + c2state.ceil.length)
      (fun _ => False)
      (linprog2d_iterate c2state false 0 false) := by
  refine ⟨?_, ?_, ?_, ?_⟩
  · rw [linprog2d_condition_problem, mat22_rot_01]
    norm_num [linprog2d_condition_loop, linprog2d_normalization_coeff,
      feq_, fmax_, MAX_EPS_ABS, MAX_EPS_REL, abs]
  · norm_num [linprog2d_categorize_constraints, List.range_succ, c2cond,
      linprog2d_constraint_category, CAT_VERT_LEFT, CAT_VERT_RIGHT,
      CAT_CEIL, CAT_FLOOR, feq_, fmax_, MAX_EPS_ABS, MAX_EPS_REL, abs,
      XVal.le, XVal.fmax, XVal.fmin, XVal.lt]
  · norm_num [linprog2d_iterate_xs, c2state, c2cond,
      linprog2d_calculate_intersects, pairList,
      linprog2d_calculate_intersect, linprog2d_eliminate_constraint, feq_,
      fmax_, fmin_, MAX_EPS_ABS, MAX_EPS_REL, abs, XVal.lt, XVal.le,
      XVal.feq, Function.update]
  · norm_num [linprog2d_iterate, c2state, c2cond,
      linprog2d_calculate_intersects, pairList,
      linprog2d_calculate_intersect, linprog2d_eliminate_constraint, feq_,
      fmax_, fmin_, MAX_EPS_ABS, MAX_EPS_REL, abs, XVal.lt, XVal.le,
      XVal.feq, Function.update, median, kth_smallest, kth_smallest_go,
      sort, compSwap, listSwap, linprog2d_locate_optimum,
      linprog2d_track_extrema, XVal.fmax, XVal.fmin, XVal.toQ, Sum.elim]

theorem C2_pruning_step_witness :
    linprog2d_loop_guard c2par ∧
    Sum.elim
      (fun t => t.1.floor.length + t.1.ceil.length <
        c2par.floor.length + c2par.ceil.length)
      (fun _ => False)
      (linprog2d_iterate c2par false 0 false) := by
  have hg : linprog2d_loop_guard c2par := by
    norm_num [linprog2d_loop_guard, c2par, XVal.lt]
  have hit : linprog2d_iterate c2par false 0 false =
      .inl ({ c2par with floor := [0] }, false, 0, false) := by
    norm_num [linprog2d_iterate, c2par, linprog2d_calculate_intersects,
      pairList, linprog2d_calculate_intersect,
      linprog2d_eliminate_constraint, feq_, fmax_, fmin_, MAX_EPS_ABS,
      MAX_EPS_REL, abs, XVal.lt, XVal.le, XVal.feq]
  have hxs : linprog2d_iterate_xs c2par false 0 false = [] := by
    norm_num [linprog2d_iterate_xs, c2par, linprog2d_calculate_intersects,
      pairList, linprog2d_calculate_intersect,
      linprog2d_eliminate_constraint, feq_, fmax_, fmin_, MAX_EPS_ABS,
      MAX_EPS_REL, abs, XVal.lt, XVal.le, XVal.feq]
  refine ⟨hg, ?_⟩
  rw [hit]
  show ({ c2par with floor := [0] } : linprog2d_data).floor.length +
    ({ c2par with floor := [0] } : linprog2d_data).ceil.length <
    c2par.floor.length + c2par.ceil.length
  exact (C2_pruning_step c2par false 0 false _ false 0 false hg hit).2.2.1
    hxs

set_option maxHeartbeats 1000000 in
/-- C6 counterexample: the point (5, 6) is feasible for both conditioned
constraints of c6s0, the categorizer leaves the interval at (-inf, inf),
yet the first pruning iteration clamps x1 to 0 < 5: a feasible x need not
stay inside [x0, x1] across pruning updates (the loop only preserves the
optimum, not the feasible set). -/
theorem C6_containment_cex :
    c6s0.h 0 ≤ c6s0.Gx 0 * 5 + c6s0.Gy 0 * 6 ∧
    c6s0.h 1 ≤ c6s0.Gx 1 * 5 + c6s0.Gy 1 * 6 ∧
    linprog2d_categorize_constraints c6s0 =
      (true, { c6s0 with floor := [0, 1] }) ∧
    Sum.elim (fun t => XVal.lt t.1.x1 (XVal.fin 5)) (fun _ => False)
      (linprog2d_iterate c6s2 false 0 false) := by
  refine ⟨by norm_num [c6s0], by norm_num [c6s0], ?_, ?_⟩
  · norm_num [linprog2d_categorize_constraints, List.range_succ, c6s0,
      linprog2d_constraint_category, CAT_VERT_LEFT, CAT_VERT_RIGHT,
      CAT_CEIL, CAT_FLOOR, feq_, fmax_, MAX_EPS_ABS, MAX_EPS_REL, abs,
      XVal.le]
  · norm_num [linprog2d_iterate, c6s2, c6s0,
      linprog2d_calculate_intersects, pairList,
      linprog2d_calculate_intersect, linprog2d_eliminate_constraint, feq_,
      fmax_, fmin_, MAX_EPS_ABS, MAX_EPS_REL, abs, XVal.lt, XVal.le,
      XVal.feq, Function.update, median, kth_smallest, kth_smallest_go,
      sort, compSwap, listSwap, linprog2d_locate_optimum,
      linprog2d_track_extrema, XVal.fmax, XVal.fmin, XVal.toQ, Sum.elim]
